import Mathlib

/-!
Verification development for `metadata-please`, a library extracting Python
package metadata from wheels, sdists and source checkouts.

The Python sources under `metadata_please/` are shallowly embedded below:
byte strings are modelled as Lean `String` (the code decodes everything as
UTF-8 text), archives as association lists from entry name to content,
Python exceptions as an explicit `Except` error type, and Python `dict`s as
association lists with update-in-place-or-append semantics.  Python string
semantics (strip / partition / splitlines / repr / `in`) are reproduced by
the `py*` helpers; ASCII is assumed for case folding and whitespace, which
covers every input the library's formats produce.
-/

namespace MetadataPlease

/-- Python whitespace characters recognised by `str.strip` (ASCII subset). -/
def pyIsSpace (c : Char) : Bool :=
  c = ' ' || c = '\t' || c = '\n' || c = '\r' || c = '\x0b' || c = '\x0c'

/-- Python `str.strip()` (both ends). -/
def pyStrip (s : String) : String :=
  ⟨((s.data.dropWhile pyIsSpace).reverse.dropWhile pyIsSpace).reverse⟩

/-- Python `str.lstrip()`. -/
def pyLstrip (s : String) : String :=
  ⟨s.data.dropWhile pyIsSpace⟩

/-- `listIsPrefixOf n l` decides whether `n` is a prefix of `l`. -/
def listIsPrefixOf : List Char → List Char → Bool
  | [], _ => true
  | _ :: _, [] => false
  | a :: as, b :: bs => a = b && listIsPrefixOf as bs

/-- Split a character list at every occurrence of `c` (the behaviour of
Python `s.split(c)` and of `String.splitOn` for a single-character
separator, implemented structurally so that it reduces in the kernel). -/
def splitOnChar (c : Char) : List Char → List (List Char)
  | [] => [[]]
  | h :: t =>
    let r := splitOnChar c t
    if h = c then [] :: r
    else
      match r with
      | [] => [[h]]
      | g :: gs => (h :: g) :: gs

/-- `s.split(c)` for a single-character separator. -/
def strSplitOnChar (s : String) (c : Char) : List String :=
  (splitOnChar c s.data).map (fun l => ⟨l⟩)

/-- `s[:n]`. -/
def strTake (s : String) (n : Nat) : String := ⟨s.data.take n⟩

/-- `s[n:]`. -/
def strDrop (s : String) (n : Nat) : String := ⟨s.data.drop n⟩

/-- `s[-1:]`. -/
def strTakeRight1 (s : String) : String :=
  match s.data.getLast? with
  | some c => ⟨[c]⟩
  | none => ""

/-- `sep.join(parts)` / `String.intercalate`, structurally. -/
def strIntercalate (sep : String) : List String → String
  | [] => ""
  | [x] => x
  | x :: y :: rest => x ++ sep ++ strIntercalate sep (y :: rest)

/-- Python `s.startswith(p)`. -/
def strStartsWith (s p : String) : Bool :=
  listIsPrefixOf p.data s.data

/-- Python `s.endswith(p)`. -/
def strEndsWith (s p : String) : Bool :=
  listIsPrefixOf p.data.reverse s.data.reverse

/-- Python `str.splitlines()` restricted to `\n` separators: like
splitting on `\n` except that a trailing line terminator does not produce
a final empty element. -/
def pySplitlines (s : String) : List String :=
  let parts := strSplitOnChar s '\n'
  if parts.getLast? = some "" then parts.dropLast else parts

/-- Substring occurrence test on character lists. -/
def listContainsSub (n : List Char) : List Char → Bool
  | [] => listIsPrefixOf n []
  | h :: t => listIsPrefixOf n (h :: t) || listContainsSub n t

/-- Python `needle in hay` for strings (substring containment). -/
def pyIn (needle hay : String) : Bool :=
  listContainsSub needle.data hay.data

/-- Core of Python `str.partition`: returns (before, found?, after). -/
def partitionList (sep : List Char) : List Char → (List Char × Bool × List Char)
  | [] => ([], false, [])
  | h :: t =>
    if listIsPrefixOf sep (h :: t) then ([], true, (h :: t).drop sep.length)
    else
      let r := partitionList sep t
      (h :: r.1, r.2.1, r.2.2)

/-- Python `s.partition(sep)` with the middle component reduced to a found
flag (the code only ever tests/discards the separator component). -/
def pyPartition (s sep : String) : (String × Bool × String) :=
  let r := partitionList sep.data s.data
  (⟨r.1⟩, r.2.1, ⟨r.2.2⟩)

/-- Python `s.split(sep, 1)`: at most one split, at the first occurrence. -/
def pySplit1 (s sep : String) : List String :=
  let r := pyPartition s sep
  if r.2.1 then [r.1, r.2.2] else [s]

/-- Python `str.lower()` (ASCII case folding). -/
def pyLower (s : String) : String :=
  ⟨s.data.map Char.toLower⟩

/-- The characters collapsed by PEP 503 name canonicalization. -/
def isCanonSep (c : Char) : Bool :=
  c = '-' || c = '_' || c = '.'

/-- Replace every maximal run of `-`/`_`/`.` by a single `-`
(the effect of `re.sub(r"[-_.]+", "-", name)`): a separator merges with
the collapsed tail when that tail already starts with the `-` produced by
an adjacent separator run (a leading `-` in the collapsed tail can only
come from a separator, since `-` itself is one). -/
def collapseSepRuns : List Char → List Char
  | [] => []
  | c :: rest =>
    if isCanonSep c then
      match collapseSepRuns rest with
      | '-' :: tail => '-' :: tail
      | tail => '-' :: tail
    else c :: collapseSepRuns rest

/-- `packaging.utils.canonicalize_name`:
`re.sub(r"[-_.]+", "-", name).lower()`. -/
def canonicalize_name (s : String) : String :=
  pyLower ⟨collapseSepRuns s.data⟩

/-- Stable ascending insertion by string length (Python `list.sort(key=len)`
is a stable ascending sort). -/
def insertByLen (x : String) : List String → List String
  | [] => [x]
  | y :: ys => if x.length < y.length then x :: y :: ys else y :: insertByLen x ys

/-- Stable sort by length, mirroring `requires.sort(key=len)`. -/
def pySortByLen (l : List String) : List String :=
  l.foldl (fun acc x => insertByLen x acc) []

/-- Lexicographic (code-point) comparison on character lists. -/
def listLexLt : List Char → List Char → Bool
  | [], [] => false
  | [], _ :: _ => true
  | _ :: _, [] => false
  | a :: as, b :: bs =>
    if a < b then true else if b < a then false else listLexLt as bs

/-- Lexicographic (code-point) strict order used by Python `sorted` on
strings. -/
def strLt (a b : String) : Bool :=
  listLexLt a.data b.data

def insertLex (x : String) : List String → List String
  | [] => [x]
  | y :: ys => if strLt x y then x :: y :: ys else y :: insertLex x ys

/-- Python `sorted()` on a list of strings (stable; lexicographic). -/
def pySortedLex (l : List String) : List String :=
  l.foldl (fun acc x => insertLex x acc) []

/-- Python dict assignment `d[k] = v` on an association list: update the
existing key in place, else append. -/
def pyDictInsert (d : List (String × String)) (k v : String) :
    List (String × String) :=
  if d.any (fun p => p.1 = k) then
    d.map (fun p => if p.1 = k then (k, v) else p)
  else d ++ [(k, v)]

/-- Python dict lookup `d.get(k)` on an association list. -/
def pyDictGet (d : List (String × String)) (k : String) : Option String :=
  (d.find? (fun p => p.1 = k)).map (fun p => p.2)

/-- Python exceptions raised (or propagated) by the embedded code. -/
inductive PyExn where
  | valueError (msg : String)
  | keyError (key : String)
  | indexError
  | assertionError
  | typeError
  | attributeError
deriving DecidableEq, Repr

/-- Python `repr` of a string: single quotes, switching to double quotes
when the text contains a single quote but no double quote; backslashes and
the quote character are escaped. -/
def pyReprStr (s : String) : String :=
  let quote : Char :=
    if s.data.contains '\x27' && !(s.data.contains '"') then '"' else '\x27'
  let escaped := s.data.flatMap (fun c =>
    if c = '\\' then ['\\', '\\']
    else if c = quote then ['\\', quote]
    else [c])
  ⟨quote :: escaped ++ [quote]⟩

/-- Python `int(s)` for decimal literals (optional sign, surrounding
whitespace allowed), raising `ValueError` otherwise. -/
def pyIntCore (l : List Char) : Bool × List Char :=
  match l with
  | c :: rest =>
    if c = '-' then (true, rest)
    else if c = '+' then (false, rest)
    else (false, c :: rest)
  | [] => (false, [])

def pyInt (s : String) : Except PyExn Int :=
  if (pyIntCore (pyStrip s).data).2 ≠ [] && (pyIntCore (pyStrip s).data).2.all Char.isDigit then
    .ok (if (pyIntCore (pyStrip s).data).1 then
          -(((pyIntCore (pyStrip s).data).2.foldl
              (fun acc c => acc * 10 + (c.toNat - 48)) 0 : Nat) : Int)
        else (((pyIntCore (pyStrip s).data).2.foldl
              (fun acc c => acc * 10 + (c.toNat - 48)) 0 : Nat) : Int))
  else .error (.valueError ("invalid literal for int() with base 10: " ++ pyReprStr s))

/-! ## `source_checkout.py`: marker combination and version-range translation -/

/-- `combine_markers(*markers)` from `source_checkout.py`. -/
def combine_markers (markers : List String) : String :=
  let filtered_markers := markers.filter (fun m => m ≠ "" && pyStrip m ≠ "")
  if filtered_markers.length = 0 then ""
  else if filtered_markers.length = 1 then filtered_markers.headD ""
  else strIntercalate " and " (filtered_markers.map (fun m => "(" ++ m ++ ")"))

/-- `merge_extra_marker(extra_name, value)` from `source_checkout.py`. -/
def merge_extra_marker (extra_name value : String) : String :=
  if !(pyIn ";" value) then
    value ++ " ; extra == \"" ++ extra_name ++ "\""
  else
    let p := pyPartition value ";"
    let a := pyStrip p.1
    let b := pyStrip p.2.2
    let c := "extra == \"" ++ extra_name ++ "\""
    a ++ " ; " ++ combine_markers [b, c]

/-- The `for i in range(len(parts)) ... else raise` body of
`_translate_caret`: keep leading literal `"0"` components, increment the
first other component (as an int) and truncate the rest; error when all
components are the literal `"0"`. -/
def caretBump : List String → Except PyExn (List String)
  | [] => .error (.valueError "All components were zero?")
  | p :: rest =>
    if p ≠ "0" then do
      let n ← pyInt p
      .ok [toString (n + 1)]
    else do
      let tail ← caretBump rest
      .ok (p :: tail)

/-- `_translate_caret(specifier)` from `source_checkout.py`. -/
def translate_caret (specifier : String) : Except PyExn String := do
  if pyIn "," specifier then throw .assertionError
  let parts0 := strSplitOnChar (strDrop specifier 1) '.'
  let parts := parts0 ++ List.replicate (3 - parts0.length) "0"
  let incremented ← caretBump parts
  .ok (">=" ++ strDrop specifier 1 ++ ",<" ++ strIntercalate "." incremented)

/-- `_translate_tilde(specifier)` from `source_checkout.py`. -/
def translate_tilde (specifier : String) : Except PyExn String := do
  if pyIn "," specifier then throw .assertionError
  let parts := strSplitOnChar (strDrop specifier 1) '.'
  let incremented := parts.take 2
  match incremented.getLast? with
  | none => throw .indexError
  | some last => do
    let n ← pyInt last
    let bumped := incremented.dropLast ++ [toString (n + 1)]
    .ok (">=" ++ strDrop specifier 1 ++ ",<" ++ strIntercalate "." bumped)

/-! ## `email.message_from_string` (compat32), as used by `types.py`

Only the features the library relies on are modelled: splitting the text at
the first blank line into a header section and a payload, one header per
`Name: value` line (value taken after the first colon, left-stripped),
case-insensitive `get` (first match) and `get_all` (all matches, in order).
Inputs handled by the claims below never use folded (continuation) headers,
and header lines always contain a colon. -/

/-- A parsed message: ordered headers plus the body text. -/
structure PyMessage where
  headers : List (String × String)
  payload : String
deriving DecidableEq

/-- Split a list of lines at the first blank line: (header lines, body lines). -/
def splitAtBlank : List String → (List String × List String)
  | [] => ([], [])
  | l :: rest =>
    if l = "" then ([], rest)
    else
      let r := splitAtBlank rest
      (l :: r.1, r.2)

/-- Parse one `Name: value` header line (value left-stripped). -/
def parseHeaderLine (l : String) : (String × String) :=
  let p := pyPartition l ":"
  (p.1, pyLstrip p.2.2)

/-- `email.message_from_string`, restricted as described above. -/
def message_from_string (s : String) : PyMessage :=
  let hb := splitAtBlank (strSplitOnChar s '\n')
  { headers := (hb.1.filter (fun l => pyIn ":" l)).map parseHeaderLine
    payload := strIntercalate "\n" hb.2 }

/-- `msg.get(name)`: value of the first header matching case-insensitively. -/
def PyMessage.get (m : PyMessage) (name : String) : Option String :=
  (m.headers.find? (fun p => pyLower p.1 = pyLower name)).map (fun p => p.2)

/-- `msg.get_all(name)`: values of all matching headers, in order
(the empty list stands for Python's `None`, both being falsy). -/
def PyMessage.get_all (m : PyMessage) (name : String) : List String :=
  (m.headers.filter (fun p => pyLower p.1 = pyLower name)).map (fun p => p.2)

/-! ## `types.py` -/

/-- `BasicMetadata` from `types.py`.  `reqs` is the requirement sequence,
`provides_extra` the extras frozenset; `project_urls` (a mapping) is an
association list in insertion order; every other field is an optional
string defaulting to `None`. -/
structure BasicMetadata where
  reqs : List String := []
  provides_extra : Finset String := ∅
  name : Option String := none
  version : Option String := none
  requires_python : Option String := none
  url : Option String := none
  project_urls : List (String × String) := []
  author : Option String := none
  author_email : Option String := none
  summary : Option String := none
  description : Option String := none
  keywords : Option String := none
  long_description_content_type : Option String := none
deriving DecidableEq

/-- Python truthiness of an optional string (`None` and `""` are falsy). -/
def truthyOpt (o : Option String) : Bool :=
  match o with
  | none => false
  | some s => s ≠ ""

/-- Python truthiness of a sequence. -/
def truthyList (l : List String) : Bool := l ≠ []

/-- Python truthiness of a frozenset. -/
def truthyFinset (s : Finset String) : Bool := s ≠ ∅

/-- Python truthiness of a mapping. -/
def truthyUrls (l : List (String × String)) : Bool := l ≠ []

/-- `BasicMetadata.__or__`: the source copies `self.__dict__` and updates it
with the truthy entries of `other.__dict__`, which is exactly this
fieldwise choice: take `other`'s field when truthy, else keep `self`'s. -/
def BasicMetadata.or (self other : BasicMetadata) : BasicMetadata where
  reqs := if truthyList other.reqs then other.reqs else self.reqs
  provides_extra :=
    if truthyFinset other.provides_extra then other.provides_extra
    else self.provides_extra
  name := if truthyOpt other.name then other.name else self.name
  version := if truthyOpt other.version then other.version else self.version
  requires_python :=
    if truthyOpt other.requires_python then other.requires_python
    else self.requires_python
  url := if truthyOpt other.url then other.url else self.url
  project_urls :=
    if truthyUrls other.project_urls then other.project_urls
    else self.project_urls
  author := if truthyOpt other.author then other.author else self.author
  author_email :=
    if truthyOpt other.author_email then other.author_email
    else self.author_email
  summary := if truthyOpt other.summary then other.summary else self.summary
  description :=
    if truthyOpt other.description then other.description
    else self.description
  keywords := if truthyOpt other.keywords then other.keywords else self.keywords
  long_description_content_type :=
    if truthyOpt other.long_description_content_type then
      other.long_description_content_type
    else self.long_description_content_type

/-- `msg.get("Description") or msg.get_payload() or None`. -/
def descriptionFallback (d : Option String) (payload : String) : Option String :=
  match d with
  | some s =>
    if s ≠ "" then some s
    else if payload ≠ "" then some payload else none
  | none => if payload ≠ "" then some payload else none

/-- `BasicMetadata.from_metadata(metadata)` from `types.py`. -/
def BasicMetadata.from_metadata (metadata : String) : BasicMetadata :=
  let msg := message_from_string metadata
  { reqs := msg.get_all "Requires-Dist"
    provides_extra := (msg.get_all "Provides-Extra").toFinset
    name := msg.get "Name"
    version := msg.get "Version"
    requires_python := msg.get "Requires-Python"
    url := msg.get "Home-Page"
    project_urls :=
      (msg.get_all "Project-URL").foldl
        (fun d line =>
          let p := pyPartition line "="
          pyDictInsert d p.1 p.2.2)
        []
    author := msg.get "Author"
    author_email := msg.get "Author-Email"
    summary := msg.get "Summary"
    description := descriptionFallback (msg.get "Description") msg.payload
    keywords := msg.get "Keywords"
    long_description_content_type := msg.get "Description-Content-Type" }

/-- Loop state of `convert_sdist_requires`. -/
structure ConvertState where
  current_markers : Option String
  extras : Finset String
  lst : List String

/-- One iteration of the `for line in data.splitlines()` loop of
`convert_sdist_requires`. -/
def convertLine (st : ConvertState) (rawLine : String) : ConvertState :=
  let line := pyStrip rawLine
  if line = "" then st
  else if strTake line 1 = "[" && strTakeRight1 line = "]" then
    let cm : String := ⟨(line.data.drop 1).dropLast⟩
    if pyIn ":" cm then
      match pySplit1 cm ":" with
      | [extra, markers] =>
        if extra ≠ "" then
          { st with
            extras := insert extra st.extras
            current_markers :=
              some ("(" ++ markers ++ ") and extra == " ++ pyReprStr extra) }
        else { st with current_markers := some markers }
      | _ => st
    else
      { st with
        extras := insert cm st.extras
        current_markers := some ("extra == " ++ pyReprStr cm) }
  else
    match st.current_markers with
    | some cm =>
      if cm ≠ "" then { st with lst := st.lst ++ [line ++ "; " ++ cm] }
      else { st with lst := st.lst ++ [line] }
    | none => { st with lst := st.lst ++ [line] }

/-- `convert_sdist_requires(data)` from `types.py`. -/
def convert_sdist_requires (data : String) : List String × Finset String :=
  let final := (pySplitlines data).foldl convertLine ⟨none, ∅, []⟩
  (final.lst, final.extras)

/-- `BasicMetadata.from_sdist_pkg_info_and_requires` from `types.py`. -/
def BasicMetadata.from_sdist_pkg_info_and_requires (pkg_info requires : String) :
    BasicMetadata :=
  let pkg_info_metadata := BasicMetadata.from_metadata pkg_info
  let conv := convert_sdist_requires requires
  let sdist_metadata : BasicMetadata :=
    { reqs := conv.1, provides_extra := conv.2 }
  sdist_metadata.or pkg_info_metadata

/-! ## `sdist.py`

A `ZipFile` / `TarFile` is modelled as an association list from entry name
to decoded content; `namelist()` / `getnames()` is the list of names and
`read` / `extractfile(...).read()` an association lookup. -/

abbrev MemFile := List (String × String)

/-- `zf.namelist()` / `tf.getnames()`. -/
def namelist (zf : MemFile) : List String := zf.map (fun p => p.1)

/-- `zf.read(name)` / `tf.extractfile(name)`. -/
def readEntry (zf : MemFile) (name : String) : Option String :=
  (zf.find? (fun p => p.1 = name)).map (fun p => p.2)

/-- `basic_metadata_from_zip_sdist(zf)` from `sdist.py`.  The
`sorted(...)[0]` on the PKG-INFO candidates raises `IndexError` when no
entry matches. -/
def basic_metadata_from_zip_sdist (zf : MemFile) : Except PyExn BasicMetadata := do
  let requires := pySortByLen ((namelist zf).filter (fun f => strEndsWith f "/requires.txt"))
  let requires_data ←
    match requires with
    | [] => pure ""
    | r :: _ =>
      match readEntry zf r with
      | some d => pure d
      | none => throw (.keyError r)
  let pkg_infos := pySortByLen ((namelist zf).filter
    (fun f => f = "PKG-INFO" || strEndsWith f "/PKG-INFO"))
  match pkg_infos with
  | [] => throw .indexError
  | pkg_info :: _ =>
    match readEntry zf pkg_info with
    | some pkg_info_data =>
      pure (BasicMetadata.from_sdist_pkg_info_and_requires pkg_info_data requires_data)
    | none => throw (.keyError pkg_info)

/-- `basic_metadata_from_tar_sdist(tf)` from `sdist.py` (same shape as the
zip variant; a missing member makes `extractfile` return `None`, tripping
the `assert fo is not None`). -/
def basic_metadata_from_tar_sdist (tf : MemFile) : Except PyExn BasicMetadata := do
  let requires := pySortByLen ((namelist tf).filter (fun f => strEndsWith f "/requires.txt"))
  let requires_data ←
    match requires with
    | [] => pure ""
    | r :: _ =>
      match readEntry tf r with
      | some d => pure d
      | none => throw .assertionError
  let pkg_infos := pySortByLen ((namelist tf).filter
    (fun f => f = "PKG-INFO" || strEndsWith f "/PKG-INFO"))
  match pkg_infos with
  | [] => throw .indexError
  | pkg_info :: _ =>
    match readEntry tf pkg_info with
    | some pkg_info_data =>
      pure (BasicMetadata.from_sdist_pkg_info_and_requires pkg_info_data requires_data)
    | none => throw .assertionError

/-! ## `wheel.py` -/

/-- `p.split("/", 1)[0]`: the top-level path segment of an entry name. -/
def topSegment (p : String) : String :=
  (pySplit1 p "/").headD p

/-- Python `set(...)` of a list, realised as first-occurrence
deduplication.  Iteration order of a Python set is unspecified; every use
below is order-insensitive (emptiness, cardinality-one element, sorted
output). -/
def pySet (l : List String) : List String :=
  l.foldl (fun acc x => if acc.contains x then acc else acc ++ [x]) []

/-- `InvalidWheel` from `wheel.py`, with the data carried in each message
made explicit; `keyError` models `zf.read` of a missing entry name (a
`KeyError`, not an `InvalidWheel`). -/
inductive WheelErr where
  | zeroDistInfo
  | ambiguousDistInfo (candidates : List String)
  | nameMismatch (info_dir : String) (project_name : String)
  | keyError (name : String)
deriving DecidableEq, Repr

/-- The `info_dirs` computed by `_distinfo_dir`: the set of top-level path
segments ending in `.dist-info`. -/
def wheelInfoDirs (names : List String) : List String :=
  (pySet (names.map topSegment)).filter (fun s => strEndsWith s ".dist-info")

/-- `_distinfo_dir(zf)` from `wheel.py` (taking the name listing). -/
def distinfo_dir (names : List String) : Except WheelErr String :=
  let info_dirs := wheelInfoDirs names
  if info_dirs = [] then .error .zeroDistInfo
  else if 1 < info_dirs.length then .error (.ambiguousDistInfo (pySortedLex info_dirs))
  else .ok (info_dirs.headD "")

/-- `from_wheel(zf, project_name)` from `wheel.py`. -/
def from_wheel (zf : MemFile) (project_name : String) : Except WheelErr String := do
  let info_dir ← distinfo_dir (namelist zf)
  if !(strStartsWith (canonicalize_name info_dir) (canonicalize_name project_name)) then
    throw (.nameMismatch info_dir project_name)
  match readEntry zf (info_dir ++ "/METADATA") with
  | some b => pure b
  | none => throw (.keyError (info_dir ++ "/METADATA"))

/-! ## `source_checkout.py`: `from_poetry_checkout`

The parsed `pyproject.toml` is modelled by the fragment the function
reads: the `tool.poetry.dependencies` table (scalar version strings or
tables with `version` / `extras` / `markers` / `python` / `optional`
keys; git/path/url dependencies are tables with `version` absent), the
`tool.poetry.extras` table, and the scalar descriptive fields. -/

/-- Python dict assignment over an arbitrary value type. -/
def pyUpsert {α : Type} (d : List (String × α)) (k : String) (v : α) :
    List (String × α) :=
  if d.any (fun p => p.1 = k) then
    d.map (fun p => if p.1 = k then (k, v) else p)
  else d ++ [(k, v)]

/-- Generic dict lookup. -/
def pyGet {α : Type} (d : List (String × α)) (k : String) : Option α :=
  (d.find? (fun p => p.1 = k)).map (fun p => p.2)

/-- A value in `tool.poetry.dependencies`. -/
inductive PoetryDepVal where
  | scalar (version : String)
  | table (version : Option String) (extras : Option (List String))
      (markers : Option String) (python : Option String)
      (optional : Option Bool)
deriving DecidableEq

/-- The fragment of the parsed document read by `from_poetry_checkout`. -/
structure PoetryDoc where
  dependencies : List (String × PoetryDepVal) := []
  extras : List (String × List String) := []
  name : Option String := none
  version : Option String := none
  requires_python : Option String := none
  homepage : Option String := none
  authors : Option (List String) := none
  description : Option String := none
  readme : Option String := none
  keywords : Option (List String) := none

/-- `OPERATOR_RE.fullmatch`, for `re.compile(r"([<>=~]+)(\d.*)")`: a
maximal nonempty run of operator characters followed by a digit-led rest
(a shorter operator run cannot match, since the next character would then
be another operator character, not a digit). -/
def operatorFullmatch (s : String) : Option (String × String) :=
  let isOp : Char → Bool := fun c => c = '<' || c = '>' || c = '=' || c = '~'
  let ops := s.data.takeWhile isOp
  let rest := s.data.dropWhile isOp
  if ops ≠ [] && (match rest with | c :: _ => c.isDigit | [] => false) then
    some (⟨ops⟩, ⟨rest⟩)
  else none

/-- Python `repr` of a list of strings (used by f-strings applied to the
`authors` and `keywords` lists). -/
def pyReprStrList (l : List String) : String :=
  "[" ++ strIntercalate ", " (l.map pyReprStr) ++ "]"

/-- The body of the `for k, v in ...dependencies.items()` loop of
`from_poetry_checkout`, acting on `(saved_extra_constraints, buf)`. -/
def poetryDepStep (acc : List (String × (String × String)) × List String)
    (kv : String × PoetryDepVal) : Except PyExn (List (String × (String × String)) × List String) := do
  let (saved, buf) := acc
  if kv.1 = "python" then
    pure (saved, buf)
  else
    let k := canonicalize_name kv.1
    let fields : String × String × String × Bool ←
      match kv.2 with
      | .scalar s => pure (s, "", "", false)
      | .table ver ex mk py opt => do
        let version := ver.getD ""
        let extras :=
          match ex with
          | some l => "[" ++ strIntercalate "," l ++ "]"
          | none => ""
        let markers := mk.getD ""
        let python := py.getD ""
        let python ←
          if python ≠ "" then
            match operatorFullmatch python with
            | none => throw .assertionError
            | some m => pure ("python_version " ++ m.1 ++ " \x27" ++ m.2 ++ "\x27")
          else pure python
        let markers := combine_markers [markers, python]
        let markers := if markers ≠ "" then " ; " ++ markers else markers
        pure (version, extras, markers, opt.getD false)
    let (version, extras, markers, optional) := fields
    if version = "" then
      pure (saved, buf)
    else do
      let version ←
        if strStartsWith version "^" then translate_caret version
        else if strStartsWith version "~" then translate_tilde version
        else if version = "*" then pure "" else pure version
      let version :=
        if (match version.data with | c :: _ => c.isDigit | [] => false) then
          "==" ++ version
        else version
      if optional then
        pure (pyUpsert saved k (extras ++ version, markers), buf)
      else
        pure (saved, buf ++ ["Requires-Dist: " ++ k ++ extras ++ version ++ markers ++ "\n"])

/-- `from_poetry_checkout(path)` from `source_checkout.py`, taking the
parsed document.  Note: in the `tool.poetry.extras` loop the source
appends the extras-gated `Requires-Dist` entry without a trailing
newline (every other header is emitted with one). -/
def from_poetry_checkout (doc : PoetryDoc) : Except PyExn String := do
  let depsResult ← doc.dependencies.foldlM poetryDepStep ([], [])
  let (saved_extra_constraints, buf) := depsResult
  let buf ← doc.extras.foldlM
    (fun b kv => do
      let k := canonicalize_name kv.1
      let b := b ++ ["Provides-Extra: " ++ k ++ "\n"]
      kv.2.foldlM
        (fun b2 vi => do
          let vi := canonicalize_name vi
          match pyGet saved_extra_constraints vi with
          | none => throw (.keyError vi)
          | some cm =>
            pure (b2 ++ ["Requires-Dist: " ++ vi ++ cm.1 ++ merge_extra_marker k cm.2]))
        b)
    buf
  let buf := buf ++ (match doc.name with
    | some n => if n ≠ "" then ["Name: " ++ n ++ "\n"] else []
    | none => [])
  let buf := buf ++ (match doc.version with
    | some v => if v ≠ "" then ["Version: " ++ v ++ "\n"] else []
    | none => [])
  let buf := buf ++ (match doc.requires_python with
    | some v => if v ≠ "" then ["Requires-Python: " ++ v ++ "\n"] else []
    | none => [])
  let buf := buf ++ (match doc.homepage with
    | some v => if v ≠ "" then ["Home-Page: " ++ v ++ "\n"] else []
    | none => [])
  let buf := buf ++ (match doc.authors with
    | some l => if l ≠ [] then ["Author: " ++ pyReprStrList l ++ "\n"] else []
    | none => [])
  let buf := buf ++ (match doc.description with
    | some v => if v ≠ "" then ["Summary: " ++ v ++ "\n"] else []
    | none => [])
  let buf := buf ++ (match doc.readme with
    | some v => if v ≠ "" then ["Description: " ++ v ++ "\n"] else []
    | none => [])
  let buf := buf ++ (match doc.keywords with
    | some l => if l ≠ [] then ["Keywords: " ++ pyReprStrList l ++ "\n"] else []
    | none => [])
  pure (String.join buf)

/-! ## `source_checkout_ast.py`

A fragment of the Python AST sufficient for the constructs the evaluator
handles: imports, top-level assignments, expression statements, and the
expressions reachable from a `setup(...)` call (names, attribute chains,
calls with keyword arguments, and string/list/dict literals with string
keys).  Each `Name` node carries a tag `nid`; distinct occurrences in a
parsed tree are distinct objects, so object identity (Python `==` between
`ast.AST` instances) is tag equality, and a well-formed tree gives every
`Name` node a distinct tag. -/

inductive PyExpr where
  | name (id : String) (nid : Nat)
  | strLit (s : String)
  | listLit (elts : List PyExpr)
  | dictLit (kvs : List (String × PyExpr))
  | attribute (v : PyExpr) (attr : String)
  | call (f : PyExpr) (keywords : List (Option String × PyExpr))

/-- A Python literal value produced by `ast.literal_eval` on the grammar
above. -/
inductive PyLit where
  | str (s : String)
  | list (elts : List PyLit)
  | dict (kvs : List (String × PyLit))

/-- Statements: `import`, `from ... import`, assignment, expression. -/
inductive PyStmt where
  | importStmt (names : List (String × Option String))
  | importFrom (module : Option String) (level : Nat)
      (names : List (String × Option String))
  | assign (targets : List PyExpr) (value : PyExpr)
  | exprStmt (e : PyExpr)

/-- `ast.Module`. -/
structure PyModule where
  body : List PyStmt

mutual

/-- `ast.literal_eval`: evaluates string/list/dict literals; any name,
attribute or call raises `ValueError`. -/
def literal_eval : PyExpr → Except PyExn PyLit
  | .strLit s => .ok (.str s)
  | .listLit es => do pure (.list (← literalEvalList es))
  | .dictLit kvs => do pure (.dict (← literalEvalKvs kvs))
  | .name _ _ => .error (.valueError "malformed node or string")
  | .attribute _ _ => .error (.valueError "malformed node or string")
  | .call _ _ => .error (.valueError "malformed node or string")

def literalEvalList : List PyExpr → Except PyExn (List PyLit)
  | [] => .ok []
  | e :: rest => do pure ((← literal_eval e) :: (← literalEvalList rest))

def literalEvalKvs : List (String × PyExpr) → Except PyExn (List (String × PyLit))
  | [] => .ok []
  | kv :: rest => do pure ((kv.1, (← literal_eval kv.2)) :: (← literalEvalKvs rest))

end

/-- A keyword-argument value recorded by the visitor: a literal, or the
`UNKNOWN` sentinel. -/
inductive SetupArg where
  | unknown
  | lit (v : PyLit)

/-- An element of the visitor's traversal stack. -/
inductive StackElem where
  | module (body : List PyStmt)
  | stmt (s : PyStmt)
  | expr (e : PyExpr)

/-- `hasattr(p, "body")`: of the nodes in this fragment only `ast.Module`
has a `body` field. -/
def bodyOf : StackElem → Option (List PyStmt)
  | .module b => some b
  | _ => none

/-- Mutable state of `SetupFindingVisitor` (the import-alias table of
`QualifiedNameSaver` plus the recorded setup-call data). -/
structure VisitorState where
  prefixes : List (String × String) := []
  setup_call_args : Option (List (String × SetupArg)) := none
  setup_call_kwargs : Option Bool := none

/-- `QualifiedNameSaver.qualified_name`. -/
def qualified_name (prefixes : List (String × String)) : PyExpr → Except PyExn String
  | .attribute v attr => do pure ((← qualified_name prefixes v) ++ "." ++ attr)
  | .name id _ =>
    match pyDictGet prefixes id with
    | some new => if new ≠ "" then .ok new else .ok ("<locals>." ++ id)
    | none => .ok ("<locals>." ++ id)
  | _ => .error (.valueError "Complex expression")

/-- `SetupFindingVisitor.locate_assignment_value`: scan `body` for an
`ast.Assign` whose `targets == [name]`.  Python `==` between AST nodes is
object identity, so the comparison succeeds only for the very same `Name`
object (same tag), never for a distinct assignment target that merely
spells the same identifier. -/
def locate_assignment_value (body : List PyStmt) (nid : Nat) : Option PyExpr :=
  body.findSome? (fun node =>
    match node with
    | .assign [.name _ tnid] value => if tnid = nid then some value else none
    | _ => none)

/-- Resolution of one keyword-argument value inside `visit_Call`: a bare
`Name` is looked up through the stack's enclosing bodies, innermost first
(`for p in self.stack[::-1]`), the first hit being literal-evaluated; any
`ValueError` (including the for-else `raise` when no body yields a hit)
is caught and recorded as `UNKNOWN`. -/
def resolveKeyword (stack : List StackElem) (value : PyExpr) : SetupArg :=
  match value with
  | .name _ nid =>
    match (stack.reverse.filterMap bodyOf).firstM
        (fun body => locate_assignment_value body nid) with
    | some v =>
      match literal_eval v with
      | .ok l => .lit l
      | .error _ => .unknown
    | none => .unknown
  | v =>
    match literal_eval v with
    | .ok l => .lit l
    | .error _ => .unknown

/-- `SetupFindingVisitor.visit_Call`. -/
def handleCall (stack : List StackElem) (st : VisitorState) (f : PyExpr)
    (keywords : List (Option String × PyExpr)) : VisitorState :=
  match qualified_name st.prefixes f with
  | .error _ => st
  | .ok qn =>
    if qn = "setuptools.setup" || qn = "distutils.setup" then
      let res := keywords.foldl
        (fun (acc : List (String × SetupArg) × Bool) kw =>
          match kw.1 with
          | none => (acc.1, true)
          | some a => (pyUpsert acc.1 a (resolveKeyword stack kw.2), acc.2))
        ([], false)
      { st with setup_call_args := some res.1, setup_call_kwargs := some res.2 }
    else st

mutual

/-- `ShortCircuitingVisitor.visit` on an expression: the node is pushed on
the stack, then dispatched; `visit_Call` returns `None`, so a call's
children are not visited, while other nodes fall to `generic_visit` and
recurse. -/
def visitExpr (stack : List StackElem) (st : VisitorState) : PyExpr → VisitorState
  | .call f kws => handleCall (stack ++ [.expr (.call f kws)]) st f kws
  | .name _ _ => st
  | .strLit _ => st
  | .attribute v a => visitExpr (stack ++ [.expr (.attribute v a)]) st v
  | .listLit es => visitExprList (stack ++ [.expr (.listLit es)]) st es
  | .dictLit kvs => visitExprKvs (stack ++ [.expr (.dictLit kvs)]) st kvs

def visitExprList (stack : List StackElem) (st : VisitorState) :
    List PyExpr → VisitorState
  | [] => st
  | e :: rest => visitExprList stack (visitExpr stack st e) rest

def visitExprKvs (stack : List StackElem) (st : VisitorState) :
    List (String × PyExpr) → VisitorState
  | [] => st
  | kv :: rest => visitExprKvs stack (visitExpr stack st kv.2) rest

end

/-- `visit` on a statement: imports update the alias table (children not
visited); assignments and expression statements recurse into their
expressions. -/
def visitStmt (stack : List StackElem) (st : VisitorState) (s : PyStmt) :
    VisitorState :=
  let stack1 := stack ++ [StackElem.stmt s]
  match s with
  | .importStmt names =>
    { st with
      prefixes := names.foldl
        (fun d a => pyUpsert d (a.2.getD a.1) a.1) st.prefixes }
  | .importFrom module level names =>
    let pfx :=
      match module with
      | some m => if m ≠ "" then m ++ "." else ⟨List.replicate level '.'⟩
      | none => (⟨List.replicate level '.'⟩ : String)
    { st with
      prefixes := names.foldl
        (fun d a => pyUpsert d (a.2.getD a.1) (pfx ++ a.1)) st.prefixes }
  | .assign targets value =>
    visitExpr stack1 (visitExprList stack1 st targets) value
  | .exprStmt e => visitExpr stack1 st e

/-- Run `SetupFindingVisitor` over a module (the module node itself is on
the stack while its children are visited). -/
def runVisitor (m : PyModule) : VisitorState :=
  m.body.foldl (visitStmt [StackElem.module m.body]) {}

/-! ## `source_checkout.py`: `from_setup_py_checkout`

The six consumed-key blocks of the source are embedded one function per
block, composed in source order. -/

/-- Python truthiness of a literal. -/
def pyTruthyLit : PyLit → Bool
  | .str s => s ≠ ""
  | .list es => !es.isEmpty
  | .dict kvs => !kvs.isEmpty

/-- Truthiness of a recorded keyword value (`UNKNOWN` is a plain object,
hence truthy). -/
def truthyArg : SetupArg → Bool
  | .unknown => true
  | .lit v => pyTruthyLit v

mutual

/-- Python `repr` of a literal. -/
def pyReprLit : PyLit → String
  | .str s => pyReprStr s
  | .list es => "[" ++ strIntercalate ", " (pyReprLitList es) ++ "]"
  | .dict kvs => "\x7b" ++ strIntercalate ", " (pyReprLitKvs kvs) ++ "\x7d"

def pyReprLitList : List PyLit → List String
  | [] => []
  | e :: rest => pyReprLit e :: pyReprLitList rest

def pyReprLitKvs : List (String × PyLit) → List String
  | [] => []
  | kv :: rest => (pyReprStr kv.1 ++ ": " ++ pyReprLit kv.2) :: pyReprLitKvs rest

end

/-- Python `str()` of a literal, as produced by an f-string. -/
def formatLit : PyLit → String
  | .str s => s
  | v => pyReprLit v

/-- Python `for x in v` on a literal: strings iterate their characters,
lists their elements, dicts their keys. -/
def iterLit : PyLit → List PyLit
  | .str s => s.data.map (fun c => .str ⟨[c]⟩)
  | .list es => es
  | .dict kvs => kvs.map (fun kv => .str kv.1)

/-- Python `needle in v` on a literal (for a list, membership compares
`needle` with each element; a string never equals a non-string). -/
def pyContainsLit (needle : String) : PyLit → Bool
  | .str s => pyIn needle s
  | .list es => es.any (fun e => match e with | .str s => s = needle | _ => false)
  | .dict kvs => kvs.any (fun kv => kv.1 = needle)

/-- Python `v.items()`: an `AttributeError` unless `v` is a dict. -/
def itemsLit : PyLit → Except PyExn (List (String × PyLit))
  | .dict kvs => .ok kvs
  | _ => .error .attributeError

/-- `merge_extra_marker(extra_name, i)` when `i` is an arbitrary literal:
for a string it is the source function; a non-string without a `";"`
member takes the first branch via its f-string rendering; a non-string
with one would call `.partition` on it and fail. -/
def mergeExtraMarkerLit (extra_name : String) (v : PyLit) : Except PyExn String :=
  match v with
  | .str s => .ok (merge_extra_marker extra_name s)
  | other =>
    if !(pyContainsLit ";" other) then
      .ok (formatLit other ++ " ; extra == \"" ++ extra_name ++ "\"")
    else .error .attributeError

/-- Dict lookup `v.setup_call_args.get(key)`. -/
def setupArgGet (d : List (String × SetupArg)) (k : String) : Option SetupArg :=
  pyGet d k

/-- The `install_requires` block of `from_setup_py_checkout`. -/
def installRequiresBlock (d : List (String × SetupArg)) (buf : List String) :
    Except PyExn (List String) :=
  match setupArgGet d "install_requires" with
  | some r =>
    if truthyArg r then
      match r with
      | .unknown => .error (.valueError "Complex setup call can't extract reqs")
      | .lit v =>
        .ok (buf ++ (iterLit v).map (fun dep => "Requires-Dist: " ++ formatLit dep ++ "\n"))
    else .ok buf
  | none => .ok buf

/-- The `extras_require` block of `from_setup_py_checkout`. -/
def extrasRequireBlock (d : List (String × SetupArg)) (buf : List String) :
    Except PyExn (List String) :=
  match setupArgGet d "extras_require" with
  | some er =>
    if truthyArg er then
      match er with
      | .unknown => .error (.valueError "Complex setup call can't extract extras")
      | .lit v => do
        let items ← itemsLit v
        items.foldlM
          (fun b kv => do
            let extra_name := canonicalize_name kv.1
            let b := b ++ ["Provides-Extra: " ++ extra_name ++ "\n"]
            (iterLit kv.2).foldlM
              (fun b2 i => do
                let s ← mergeExtraMarkerLit extra_name i
                pure (b2 ++ ["Requires-Dist: " ++ s ++ "\n"]))
              b)
          buf
    else .ok buf
  | none => .ok buf

/-- The `name` / `python_requires` / `url` blocks of
`from_setup_py_checkout`, which differ only in key, header and message. -/
def simpleKeyBlock (d : List (String × SetupArg)) (key header msg : String)
    (buf : List String) : Except PyExn (List String) :=
  match setupArgGet d key with
  | some n =>
    if truthyArg n then
      match n with
      | .unknown => .error (.valueError msg)
      | .lit v => .ok (buf ++ [header ++ ": " ++ formatLit v ++ "\n"])
    else .ok buf
  | none => .ok buf

/-- The `project_urls` block of `from_setup_py_checkout`. -/
def projectUrlsBlock (d : List (String × SetupArg)) (buf : List String) :
    Except PyExn (List String) :=
  match setupArgGet d "project_urls" with
  | some n =>
    if truthyArg n then
      match n with
      | .unknown => .error (.valueError "Complex setup call can't extract project_urls")
      | .lit v => do
        let items ← itemsLit v
        .ok (buf ++ items.map (fun kv =>
          "Project-URL: " ++ kv.1 ++ "=" ++ formatLit kv.2 ++ "\n"))
    else .ok buf
  | none => .ok buf

/-- The buffer-building part of `from_setup_py_checkout`, given the
visitor's `setup_call_args` (`none`: no setup call found; the empty dict,
like `None`, is falsy and short-circuits to an empty result). -/
def processSetupArgs (args : Option (List (String × SetupArg))) :
    Except PyExn String := do
  match args with
  | none => pure ""
  | some d =>
    if d.isEmpty then pure ""
    else do
      let buf ← installRequiresBlock d []
      let buf ← extrasRequireBlock d buf
      let buf ← simpleKeyBlock d "name" "Name"
        "Complex setup call can't extract name" buf
      let buf ← simpleKeyBlock d "python_requires" "Requires-Python"
        "Complex setup call can't extract python_requires" buf
      let buf ← simpleKeyBlock d "url" "Home-Page"
        "Complex setup call can't extract url" buf
      let buf ← projectUrlsBlock d buf
      pure (String.join buf)

/-- `from_setup_py_checkout(path)` from `source_checkout.py`, taking the
parsed module. -/
def from_setup_py_checkout (m : PyModule) : Except PyExn String :=
  processSetupArgs (runVisitor m).setup_call_args

/-! ## Claim C10 -/

/-- C10: `BasicMetadata.from_metadata` on the empty byte string returns
the canonical empty record: a freshly constructed `BasicMetadata()` with
empty requirement sequence, empty extras set, empty project-URL mapping
and every descriptive field `None` — including `description`, despite the
body-payload fallback. -/
theorem c10_from_metadata_empty :
    BasicMetadata.from_metadata "" = ({} : BasicMetadata) := by
  decide

/-! ## Claim C7 -/

/-- C7: `convert_sdist_requires` on `"a\n[e]\nb"` yields requirements
`("a", "b; extra == 'e'")` with extras `{"e"}`, and on the requires-text
with a conditional top-level section and an extra-scoped conditional
section yields exactly `("six", "enum34; python_version < \"3.4\"",
"pytest; (python_version < \"3.4\") and extra == 'test'")` with extras
`{"test"}` — the extra name single-quoted, byte for byte. -/
theorem c7_convert_sdist_requires_examples :
    convert_sdist_requires "a\n[e]\nb" =
      (["a", "b; extra == \x27e\x27"], ({"e"} : Finset String))
    ∧ convert_sdist_requires
        "six\n[:python_version < \"3.4\"]\nenum34\n[test:python_version < \"3.4\"]\npytest" =
      (["six", "enum34; python_version < \"3.4\"",
        "pytest; (python_version < \"3.4\") and extra == \x27test\x27"],
       ({"test"} : Finset String)) := by
  constructor
  · decide
  · decide

/-! ## Claim C4

The module `deps = ["a"]` followed by `setup(install_requires=deps)`,
with `setup` imported from setuptools.  Distinct tags reflect that the
assignment's target `Name` and the keyword's `Name` are distinct objects
in the parsed tree. -/

/-- `from setuptools import setup; deps = ["a"]; setup(install_requires=deps)`. -/
def c4Module : PyModule :=
  ⟨[.importFrom (some "setuptools") 0 [("setup", none)],
    .assign [.name "deps" 0] (.listLit [.strLit "a"]),
    .exprStmt (.call (.name "setup" 1) [(some "install_requires", .name "deps" 2)])]⟩

/-- C4 (code bug): on a module with a top-level assignment `deps = ["a"]`
and `setup(install_requires=deps)`, the visitor records the `UNKNOWN`
sentinel, not the literal `["a"]` — `locate_assignment_value` compares AST
nodes with `==`, which is object identity and never matches a distinct
target node — and extraction therefore raises instead of yielding the
requirement. -/
theorem c4_identifier_resolution_records_unknown :
    (runVisitor c4Module).setup_call_args = some [("install_requires", SetupArg.unknown)]
    ∧ from_setup_py_checkout c4Module =
        .error (.valueError "Complex setup call can't extract reqs") := by
  exact ⟨rfl, rfl⟩

/-! ## Claim C3

A Poetry document with one optional dependency referenced from a
(capitalised) extras declaration, plus a `name` field after it. -/

/-- `[tool.poetry] name = "somepkg"` with
`opt = { version = "^2.9", optional = true }` and `Foo = ["Opt"]`. -/
def c3PoetryDoc : PoetryDoc :=
  { dependencies := [("opt", .table (some "^2.9") none none none (some true))]
    extras := [("Foo", ["Opt"])]
    name := some "somepkg" }

/-- C3 (code bug): the extras-gated `Requires-Dist` entry is emitted
without a trailing newline, so the following `Name:` header is glued onto
the same line; reparsing the output then shows a corrupted requirement and
a lost `Name` header.  The caret translation, extras gating and
canonicalized `Provides-Extra` are all as claimed — only the newline
termination of this one header is violated. -/
theorem c3_poetry_extras_line_missing_newline :
    from_poetry_checkout c3PoetryDoc =
      .ok "Provides-Extra: foo\nRequires-Dist: opt>=2.9,<3 ; extra == \"foo\"Name: somepkg\n"
    ∧ (BasicMetadata.from_metadata
        "Provides-Extra: foo\nRequires-Dist: opt>=2.9,<3 ; extra == \"foo\"Name: somepkg\n").name
        = none
    ∧ (BasicMetadata.from_metadata
        "Provides-Extra: foo\nRequires-Dist: opt>=2.9,<3 ; extra == \"foo\"Name: somepkg\n").reqs
        = ["opt>=2.9,<3 ; extra == \"foo\"Name: somepkg"] := by
  exact ⟨rfl, rfl, rfl⟩

/-! ## Claim C1 -/

/-- A zip sdist with a `requires.txt` but no `PKG-INFO` entry. -/
def c1ZipNoPkgInfo : MemFile :=
  [("foo/__init__.py", ""), ("foo.egg-info/requires.txt", "a\n[e]\nb\n")]

/-- A tar sdist with a `requires.txt` but no `PKG-INFO` entry. -/
def c1TarNoPkgInfo : MemFile :=
  [("foo/__init__.py", ""), ("foo.egg-info/requires.txt", "a\n[e]\nb\n")]

/-- C1 counterexample: on containers holding a `requires.txt` but no
`PKG-INFO` entry, `basic_metadata_from_zip_sdist` and
`basic_metadata_from_tar_sdist` do not succeed with a requires-only
record as the claim states: `sorted(...)[0]` over the empty PKG-INFO
candidate list raises `IndexError`. -/
theorem c1_counterexample :
    basic_metadata_from_zip_sdist c1ZipNoPkgInfo = .error .indexError
    ∧ basic_metadata_from_tar_sdist c1TarNoPkgInfo = .error .indexError := by
  exact ⟨rfl, rfl⟩

theorem mem_insertByLen {y x : String} {l : List String} :
    y ∈ insertByLen x l ↔ y = x ∨ y ∈ l := by
  induction l with
  | nil => simp [insertByLen]
  | cons h t ih =>
    rw [insertByLen]
    by_cases hc : x.length < h.length
    · rw [if_pos hc]
      simp
    · rw [if_neg hc]
      simp only [List.mem_cons, ih]
      tauto

theorem mem_foldl_insertByLen (l : List String) :
    ∀ (acc : List String) (y : String),
      y ∈ l.foldl (fun a x => insertByLen x a) acc ↔ y ∈ l ∨ y ∈ acc := by
  induction l with
  | nil => simp
  | cons h t ih =>
    intro acc y
    rw [List.foldl_cons, ih, mem_insertByLen]
    simp
    tauto

theorem mem_pySortByLen {y : String} {l : List String} :
    y ∈ pySortByLen l ↔ y ∈ l := by
  rw [pySortByLen, mem_foldl_insertByLen]
  simp

theorem readEntry_of_mem {zf : MemFile} {n : String} (h : n ∈ namelist zf) :
    ∃ d, readEntry zf n = some d := by
  induction zf with
  | nil => simp [namelist] at h
  | cons e t ih =>
    by_cases he : e.1 = n
    · exact ⟨e.2, by simp [readEntry, List.find?, he]⟩
    · have hn : n ∈ namelist t := by
        have h2 : n = e.1 ∨ n ∈ namelist t := by simpa [namelist] using h
        cases h2 with
        | inl h1 => exact absurd h1.symm he
        | inr h2 => exact h2
      rcases ih hn with ⟨d, hd⟩
      refine ⟨d, ?_⟩
      simpa [readEntry, List.find?_cons, he] using hd

/-- C1 as amended: on every zip or tar sdist container with no `PKG-INFO`
entry, `basic_metadata_from_zip_sdist` / `basic_metadata_from_tar_sdist`
fails with `IndexError` (regardless of any `requires.txt` content) rather
than degrading to a requires-only record. -/
theorem c1_no_pkg_info_raises (zf tf : MemFile)
    (hz : ∀ n ∈ namelist zf, ¬(n = "PKG-INFO" ∨ strEndsWith n "/PKG-INFO" = true))
    (ht : ∀ n ∈ namelist tf, ¬(n = "PKG-INFO" ∨ strEndsWith n "/PKG-INFO" = true)) :
    basic_metadata_from_zip_sdist zf = .error .indexError
    ∧ basic_metadata_from_tar_sdist tf = .error .indexError := by
  have hfz : (namelist zf).filter (fun f => f = "PKG-INFO" || strEndsWith f "/PKG-INFO") = [] := by
    rw [List.filter_eq_nil_iff]
    intro a ha
    simpa using hz a ha
  have hft : (namelist tf).filter (fun f => f = "PKG-INFO" || strEndsWith f "/PKG-INFO") = [] := by
    rw [List.filter_eq_nil_iff]
    intro a ha
    simpa using ht a ha
  have hpz : pySortByLen ((namelist zf).filter
      (fun f => f = "PKG-INFO" || strEndsWith f "/PKG-INFO")) = [] := by
    rw [hfz]
    rfl
  have hpt : pySortByLen ((namelist tf).filter
      (fun f => f = "PKG-INFO" || strEndsWith f "/PKG-INFO")) = [] := by
    rw [hft]
    rfl
  constructor
  · cases hreq : pySortByLen ((namelist zf).filter (fun f => strEndsWith f "/requires.txt")) with
    | nil =>
      simp only [basic_metadata_from_zip_sdist, hreq, hpz]
      rfl
    | cons r rs =>
      have hr : r ∈ namelist zf := by
        have hmem : r ∈ pySortByLen ((namelist zf).filter (fun f => strEndsWith f "/requires.txt")) := by
          rw [hreq]
          exact List.mem_cons_self r rs
        exact List.mem_of_mem_filter (mem_pySortByLen.mp hmem)
      rcases readEntry_of_mem hr with ⟨d, hd⟩
      simp only [basic_metadata_from_zip_sdist, hreq, hd, hpz]
      rfl
  · cases hreq : pySortByLen ((namelist tf).filter (fun f => strEndsWith f "/requires.txt")) with
    | nil =>
      simp only [basic_metadata_from_tar_sdist, hreq, hpt]
      rfl
    | cons r rs =>
      have hr : r ∈ namelist tf := by
        have hmem : r ∈ pySortByLen ((namelist tf).filter (fun f => strEndsWith f "/requires.txt")) := by
          rw [hreq]
          exact List.mem_cons_self r rs
        exact List.mem_of_mem_filter (mem_pySortByLen.mp hmem)
      rcases readEntry_of_mem hr with ⟨d, hd⟩
      simp only [basic_metadata_from_tar_sdist, hreq, hd, hpt]
      rfl

/-- Witness for C1's amended theorem at concrete containers. -/
theorem c1_no_pkg_info_raises_witness :
    basic_metadata_from_zip_sdist [("x/requires.txt", "q")] = .error .indexError
    ∧ basic_metadata_from_tar_sdist [("pkg/src/a.py", "")] = .error .indexError :=
  c1_no_pkg_info_raises [("x/requires.txt", "q")] [("pkg/src/a.py", "")]
    (by decide) (by decide)

/-! ## Claim C2 -/

/-- C2: for every zip container and project name, `from_wheel` raises
`InvalidWheel` when the set of top-level segments ending in `.dist-info`
is empty; raises `InvalidWheel` carrying the lexicographically sorted
candidate list when there are several; raises `InvalidWheel` when the
PEP 503-canonicalized discovered directory does not start with the
canonicalized project name; and otherwise returns exactly the bytes of
the `<dist-info dir>/METADATA` entry. -/
theorem c2_from_wheel_cases (zf : MemFile) (project_name : String) :
    (wheelInfoDirs (namelist zf) = [] →
      from_wheel zf project_name = .error .zeroDistInfo)
    ∧ (1 < (wheelInfoDirs (namelist zf)).length →
      from_wheel zf project_name =
        .error (.ambiguousDistInfo (pySortedLex (wheelInfoDirs (namelist zf)))))
    ∧ (∀ d, wheelInfoDirs (namelist zf) = [d] →
      (strStartsWith (canonicalize_name d) (canonicalize_name project_name) = false →
        from_wheel zf project_name = .error (.nameMismatch d project_name))
      ∧ (∀ b, strStartsWith (canonicalize_name d) (canonicalize_name project_name) = true →
          readEntry zf (d ++ "/METADATA") = some b →
          from_wheel zf project_name = .ok b)) := by
  refine ⟨?_, ?_, ?_⟩
  · intro h
    simp only [from_wheel, distinfo_dir, h]
    rfl
  · intro h
    have hne : wheelInfoDirs (namelist zf) ≠ [] := by
      intro hnil
      rw [hnil] at h
      simp at h
    simp only [from_wheel, distinfo_dir, if_neg hne, if_pos h]
    rfl
  · intro d hd
    have hne : wheelInfoDirs (namelist zf) ≠ [] := by
      rw [hd]
      simp
    have hlen : ¬(1 < (wheelInfoDirs (namelist zf)).length) := by
      rw [hd]
      simp
    constructor
    · intro hmis
      simp only [from_wheel, distinfo_dir, if_neg hne, if_neg hlen, hd]
      simp [bind, Except.bind, hmis]
    · intro b hstart hread
      simp only [from_wheel, distinfo_dir, if_neg hne, if_neg hlen, hd]
      simp [bind, Except.bind, hstart, hread]
      rfl

/-- Witness for C2 at concrete wheels: one for each of the four cases. -/
theorem c2_from_wheel_cases_witness :
    from_wheel [("foo/x.py", "")] "foo" = .error .zeroDistInfo
    ∧ from_wheel [("b.dist-info/M", ""), ("a.dist-info/N", "")] "foo" =
        .error (.ambiguousDistInfo ["a.dist-info", "b.dist-info"])
    ∧ from_wheel [("foo-1.0.dist-info/METADATA", "MDATA")] "bar" =
        .error (.nameMismatch "foo-1.0.dist-info" "bar")
    ∧ from_wheel [("foo-1.0.dist-info/METADATA", "MDATA")] "foo" = .ok "MDATA" := by
  refine ⟨?_, ?_, ?_, ?_⟩
  · exact (c2_from_wheel_cases [("foo/x.py", "")] "foo").1 (by decide)
  · exact (c2_from_wheel_cases [("b.dist-info/M", ""), ("a.dist-info/N", "")] "foo").2.1
      (by decide)
  · exact ((c2_from_wheel_cases [("foo-1.0.dist-info/METADATA", "MDATA")] "bar").2.2
      "foo-1.0.dist-info" (by decide)).1 (by decide)
  · exact ((c2_from_wheel_cases [("foo-1.0.dist-info/METADATA", "MDATA")] "foo").2.2
      "foo-1.0.dist-info" (by decide)).2 "MDATA" (by decide) (by decide)

/-! ## Claim C6 -/

/-- C6: `combine_markers` first discards empty and whitespace-only
fragments (those whose `strip` is empty); with zero fragments remaining it
returns the empty string, with exactly one it returns that fragment
unchanged, and with two or more it wraps each in parentheses and joins
them with `" and "`. -/
theorem c6_combine_markers (markers : List String) :
    (markers.filter (fun m => pyStrip m ≠ "") = [] → combine_markers markers = "")
    ∧ (∀ f, markers.filter (fun m => pyStrip m ≠ "") = [f] → combine_markers markers = f)
    ∧ (2 ≤ (markers.filter (fun m => pyStrip m ≠ "")).length →
      combine_markers markers =
        strIntercalate " and "
          ((markers.filter (fun m => pyStrip m ≠ "")).map (fun m => "(" ++ m ++ ")"))) := by
  have hfilter : markers.filter (fun m => m ≠ "" && pyStrip m ≠ "") =
      markers.filter (fun m => pyStrip m ≠ "") := by
    apply List.filter_congr
    intro m _
    by_cases hm : m = ""
    · subst hm
      simp [pyStrip]
    · simp [hm]
  refine ⟨?_, ?_, ?_⟩
  · intro h
    simp only [combine_markers, hfilter, h]
    rfl
  · intro f h
    simp only [combine_markers, hfilter, h]
    rfl
  · intro h
    rcases hc : markers.filter (fun m => pyStrip m ≠ "") with _ | ⟨x, _ | ⟨y, t⟩⟩
    · rw [hc] at h
      simp at h
    · rw [hc] at h
      simp at h
    · simp only [combine_markers, hfilter, hc]
      rfl

/-- Witness for C6 at a concrete fragment list with an empty and a
whitespace-only fragment discarded and two survivors. -/
theorem c6_combine_markers_witness :
    2 ≤ ((["a", " ", "", "b"].filter (fun m => pyStrip m ≠ ""))).length
    ∧ combine_markers ["a", " ", "", "b"] =
      strIntercalate " and "
        ((["a", " ", "", "b"].filter (fun m => pyStrip m ≠ "")).map (fun m => "(" ++ m ++ ")")) :=
  ⟨by decide, (c6_combine_markers ["a", " ", "", "b"]).2.2 (by decide)⟩

/-! ## Claim C8 -/

theorem mergePick_keep {α : Type} (t : α → Bool) (x y : α) (h : t y = false) :
    (if t y = true then y else x) = x := by
  simp [h]

theorem mergePick_union {α : Type} (t : α → Bool) (x y : α)
    (hd : ¬(t x = true ∧ t y = true)) :
    t (if t y = true then y else x) = (t x || t y) := by
  by_cases h : t y = true
  · have hx : t x = false := by
      cases hx2 : t x
      · rfl
      · exact absurd ⟨hx2, h⟩ hd
    simp [h, hx]
  · have h2 : t y = false := by simpa using h
    simp [h2]

theorem mergePick_comm {α : Type} (t : α → Bool) (x y : α)
    (hd : ¬(t x = true ∧ t y = true)) (hp : t x = true ∨ t y = true) :
    (if t y = true then y else x) = (if t x = true then x else y) := by
  rcases hp with hx | hy
  · have hy2 : t y = false := by
      cases hc : t y
      · rfl
      · exact absurd ⟨hx, hc⟩ hd
    simp [hx, hy2]
  · have hx2 : t x = false := by
      cases hc : t x
      · rfl
      · exact absurd ⟨hc, hy⟩ hd
    simp [hy, hx2]

/-- No field is populated (truthy) in both records at once. -/
def disjointFields (a b : BasicMetadata) : Prop :=
  ¬(truthyList a.reqs = true ∧ truthyList b.reqs = true)
  ∧ ¬(truthyFinset a.provides_extra = true ∧ truthyFinset b.provides_extra = true)
  ∧ ¬(truthyOpt a.name = true ∧ truthyOpt b.name = true)
  ∧ ¬(truthyOpt a.version = true ∧ truthyOpt b.version = true)
  ∧ ¬(truthyOpt a.requires_python = true ∧ truthyOpt b.requires_python = true)
  ∧ ¬(truthyOpt a.url = true ∧ truthyOpt b.url = true)
  ∧ ¬(truthyUrls a.project_urls = true ∧ truthyUrls b.project_urls = true)
  ∧ ¬(truthyOpt a.author = true ∧ truthyOpt b.author = true)
  ∧ ¬(truthyOpt a.author_email = true ∧ truthyOpt b.author_email = true)
  ∧ ¬(truthyOpt a.summary = true ∧ truthyOpt b.summary = true)
  ∧ ¬(truthyOpt a.description = true ∧ truthyOpt b.description = true)
  ∧ ¬(truthyOpt a.keywords = true ∧ truthyOpt b.keywords = true)
  ∧ ¬(truthyOpt a.long_description_content_type = true ∧ truthyOpt b.long_description_content_type = true)

instance (a b : BasicMetadata) : Decidable (disjointFields a b) := by
  unfold disjointFields
  infer_instance

/-- C8: `BasicMetadata` merge (`base | overlay`) is fieldwise: every field
of the result is the overlay's value when that value is truthy and the
base's value otherwise; consequently a populated base field is never
replaced by an absent overlay field; and for records whose populated
fields are disjoint, the populated fields of the merge are exactly the
union of both and both merge orders agree on every populated field. -/
theorem c8_merge_fieldwise (a b : BasicMetadata) :
    (((a.or b).reqs = if truthyList b.reqs = true then b.reqs else a.reqs)
    ∧ ((a.or b).provides_extra = if truthyFinset b.provides_extra = true then b.provides_extra else a.provides_extra)
    ∧ ((a.or b).name = if truthyOpt b.name = true then b.name else a.name)
    ∧ ((a.or b).version = if truthyOpt b.version = true then b.version else a.version)
    ∧ ((a.or b).requires_python = if truthyOpt b.requires_python = true then b.requires_python else a.requires_python)
    ∧ ((a.or b).url = if truthyOpt b.url = true then b.url else a.url)
    ∧ ((a.or b).project_urls = if truthyUrls b.project_urls = true then b.project_urls else a.project_urls)
    ∧ ((a.or b).author = if truthyOpt b.author = true then b.author else a.author)
    ∧ ((a.or b).author_email = if truthyOpt b.author_email = true then b.author_email else a.author_email)
    ∧ ((a.or b).summary = if truthyOpt b.summary = true then b.summary else a.summary)
    ∧ ((a.or b).description = if truthyOpt b.description = true then b.description else a.description)
    ∧ ((a.or b).keywords = if truthyOpt b.keywords = true then b.keywords else a.keywords)
    ∧ ((a.or b).long_description_content_type = if truthyOpt b.long_description_content_type = true then b.long_description_content_type else a.long_description_content_type))
    ∧ ((truthyList b.reqs = false → (a.or b).reqs = a.reqs)
    ∧ (truthyFinset b.provides_extra = false → (a.or b).provides_extra = a.provides_extra)
    ∧ (truthyOpt b.name = false → (a.or b).name = a.name)
    ∧ (truthyOpt b.version = false → (a.or b).version = a.version)
    ∧ (truthyOpt b.requires_python = false → (a.or b).requires_python = a.requires_python)
    ∧ (truthyOpt b.url = false → (a.or b).url = a.url)
    ∧ (truthyUrls b.project_urls = false → (a.or b).project_urls = a.project_urls)
    ∧ (truthyOpt b.author = false → (a.or b).author = a.author)
    ∧ (truthyOpt b.author_email = false → (a.or b).author_email = a.author_email)
    ∧ (truthyOpt b.summary = false → (a.or b).summary = a.summary)
    ∧ (truthyOpt b.description = false → (a.or b).description = a.description)
    ∧ (truthyOpt b.keywords = false → (a.or b).keywords = a.keywords)
    ∧ (truthyOpt b.long_description_content_type = false → (a.or b).long_description_content_type = a.long_description_content_type))
    ∧ (disjointFields a b →
        ((truthyList ((a.or b).reqs) = (truthyList a.reqs || truthyList b.reqs))
        ∧ (truthyFinset ((a.or b).provides_extra) = (truthyFinset a.provides_extra || truthyFinset b.provides_extra))
        ∧ (truthyOpt ((a.or b).name) = (truthyOpt a.name || truthyOpt b.name))
        ∧ (truthyOpt ((a.or b).version) = (truthyOpt a.version || truthyOpt b.version))
        ∧ (truthyOpt ((a.or b).requires_python) = (truthyOpt a.requires_python || truthyOpt b.requires_python))
        ∧ (truthyOpt ((a.or b).url) = (truthyOpt a.url || truthyOpt b.url))
        ∧ (truthyUrls ((a.or b).project_urls) = (truthyUrls a.project_urls || truthyUrls b.project_urls))
        ∧ (truthyOpt ((a.or b).author) = (truthyOpt a.author || truthyOpt b.author))
        ∧ (truthyOpt ((a.or b).author_email) = (truthyOpt a.author_email || truthyOpt b.author_email))
        ∧ (truthyOpt ((a.or b).summary) = (truthyOpt a.summary || truthyOpt b.summary))
        ∧ (truthyOpt ((a.or b).description) = (truthyOpt a.description || truthyOpt b.description))
        ∧ (truthyOpt ((a.or b).keywords) = (truthyOpt a.keywords || truthyOpt b.keywords))
        ∧ (truthyOpt ((a.or b).long_description_content_type) = (truthyOpt a.long_description_content_type || truthyOpt b.long_description_content_type)))
        ∧ (((truthyList a.reqs = true ∨ truthyList b.reqs = true) → (a.or b).reqs = (b.or a).reqs)
        ∧ ((truthyFinset a.provides_extra = true ∨ truthyFinset b.provides_extra = true) → (a.or b).provides_extra = (b.or a).provides_extra)
        ∧ ((truthyOpt a.name = true ∨ truthyOpt b.name = true) → (a.or b).name = (b.or a).name)
        ∧ ((truthyOpt a.version = true ∨ truthyOpt b.version = true) → (a.or b).version = (b.or a).version)
        ∧ ((truthyOpt a.requires_python = true ∨ truthyOpt b.requires_python = true) → (a.or b).requires_python = (b.or a).requires_python)
        ∧ ((truthyOpt a.url = true ∨ truthyOpt b.url = true) → (a.or b).url = (b.or a).url)
        ∧ ((truthyUrls a.project_urls = true ∨ truthyUrls b.project_urls = true) → (a.or b).project_urls = (b.or a).project_urls)
        ∧ ((truthyOpt a.author = true ∨ truthyOpt b.author = true) → (a.or b).author = (b.or a).author)
        ∧ ((truthyOpt a.author_email = true ∨ truthyOpt b.author_email = true) → (a.or b).author_email = (b.or a).author_email)
        ∧ ((truthyOpt a.summary = true ∨ truthyOpt b.summary = true) → (a.or b).summary = (b.or a).summary)
        ∧ ((truthyOpt a.description = true ∨ truthyOpt b.description = true) → (a.or b).description = (b.or a).description)
        ∧ ((truthyOpt a.keywords = true ∨ truthyOpt b.keywords = true) → (a.or b).keywords = (b.or a).keywords)
        ∧ ((truthyOpt a.long_description_content_type = true ∨ truthyOpt b.long_description_content_type = true) → (a.or b).long_description_content_type = (b.or a).long_description_content_type))) := by
  refine ⟨⟨rfl, rfl, rfl, rfl, rfl, rfl, rfl, rfl, rfl, rfl, rfl, rfl, rfl⟩, ⟨fun h => mergePick_keep truthyList a.reqs b.reqs h,
    fun h => mergePick_keep truthyFinset a.provides_extra b.provides_extra h,
    fun h => mergePick_keep truthyOpt a.name b.name h,
    fun h => mergePick_keep truthyOpt a.version b.version h,
    fun h => mergePick_keep truthyOpt a.requires_python b.requires_python h,
    fun h => mergePick_keep truthyOpt a.url b.url h,
    fun h => mergePick_keep truthyUrls a.project_urls b.project_urls h,
    fun h => mergePick_keep truthyOpt a.author b.author h,
    fun h => mergePick_keep truthyOpt a.author_email b.author_email h,
    fun h => mergePick_keep truthyOpt a.summary b.summary h,
    fun h => mergePick_keep truthyOpt a.description b.description h,
    fun h => mergePick_keep truthyOpt a.keywords b.keywords h,
    fun h => mergePick_keep truthyOpt a.long_description_content_type b.long_description_content_type h⟩, fun hd => ?_⟩
  obtain ⟨h1, h2, h3, h4, h5, h6, h7, h8, h9, h10, h11, h12, h13⟩ := hd
  exact ⟨⟨mergePick_union truthyList a.reqs b.reqs h1,
      mergePick_union truthyFinset a.provides_extra b.provides_extra h2,
      mergePick_union truthyOpt a.name b.name h3,
      mergePick_union truthyOpt a.version b.version h4,
      mergePick_union truthyOpt a.requires_python b.requires_python h5,
      mergePick_union truthyOpt a.url b.url h6,
      mergePick_union truthyUrls a.project_urls b.project_urls h7,
      mergePick_union truthyOpt a.author b.author h8,
      mergePick_union truthyOpt a.author_email b.author_email h9,
      mergePick_union truthyOpt a.summary b.summary h10,
      mergePick_union truthyOpt a.description b.description h11,
      mergePick_union truthyOpt a.keywords b.keywords h12,
      mergePick_union truthyOpt a.long_description_content_type b.long_description_content_type h13⟩,
    ⟨fun hp => mergePick_comm truthyList a.reqs b.reqs h1 hp,
      fun hp => mergePick_comm truthyFinset a.provides_extra b.provides_extra h2 hp,
      fun hp => mergePick_comm truthyOpt a.name b.name h3 hp,
      fun hp => mergePick_comm truthyOpt a.version b.version h4 hp,
      fun hp => mergePick_comm truthyOpt a.requires_python b.requires_python h5 hp,
      fun hp => mergePick_comm truthyOpt a.url b.url h6 hp,
      fun hp => mergePick_comm truthyUrls a.project_urls b.project_urls h7 hp,
      fun hp => mergePick_comm truthyOpt a.author b.author h8 hp,
      fun hp => mergePick_comm truthyOpt a.author_email b.author_email h9 hp,
      fun hp => mergePick_comm truthyOpt a.summary b.summary h10 hp,
      fun hp => mergePick_comm truthyOpt a.description b.description h11 hp,
      fun hp => mergePick_comm truthyOpt a.keywords b.keywords h12 hp,
      fun hp => mergePick_comm truthyOpt a.long_description_content_type b.long_description_content_type h13 hp⟩⟩

/-- A record with only requirements populated. -/
def c8A : BasicMetadata := { reqs := ["x"] }

/-- A record with only a name populated. -/
def c8B : BasicMetadata := { name := some "n" }

/-- Witness for C8 at two concrete records with disjoint populated
fields. -/
theorem c8_merge_fieldwise_witness :
    truthyList ((c8A.or c8B).reqs) = (truthyList c8A.reqs || truthyList c8B.reqs)
    ∧ ((truthyOpt c8A.name = true ∨ truthyOpt c8B.name = true) →
        (c8A.or c8B).name = (c8B.or c8A).name) :=
  ⟨(((c8_merge_fieldwise c8A c8B).2.2 (by decide)).1).1,
   fun hp => ((((c8_merge_fieldwise c8A c8B).2.2 (by decide)).2).2.2.1) hp⟩

/-! ## Claim C5 -/

/-- A nonempty string of decimal digits. -/
def isDigitString (s : String) : Bool :=
  !s.data.isEmpty && s.data.all Char.isDigit

/-- Numeric value of a digit string. -/
def natOfDigits (s : String) : Nat :=
  s.data.foldl (fun acc c => acc * 10 + (c.toNat - 48)) 0

/-- Modelled from the claim (as amended): the upper-bound component list
of a caret range — keep leading literal-`"0"` components, increment the
leftmost other component, truncate everything after it; `none` when every
component is `"0"`. -/
def caretNext : List String → Option (List String)
  | [] => none
  | c :: rest =>
    if c = "0" then (caretNext rest).map (fun t => "0" :: t)
    else some [toString ((natOfDigits c : Int) + 1)]

/-- Modelled from the claim: the upper-bound component list of a tilde
range — keep only the first two components, incrementing the last kept
one. -/
def tildeNext : List String → List String
  | [] => []
  | [a] => [toString ((natOfDigits a : Int) + 1)]
  | a :: b :: _ => [a, toString ((natOfDigits b : Int) + 1)]

theorem digit_not_space {c : Char} (h : c.isDigit = true) : pyIsSpace c = false := by
  rcases Bool.eq_false_or_eq_true (pyIsSpace c) with ht | hf
  · exfalso
    simp only [pyIsSpace, Bool.or_eq_true, decide_eq_true_eq] at ht
    rcases ht with ((((h1 | h1) | h1) | h1) | h1) | h1 <;> subst h1 <;> exact absurd h (by decide)
  · exact hf

theorem dropWhile_eq_self_of_all {p : Char → Bool} {l : List Char}
    (h : ∀ c ∈ l, p c = false) : l.dropWhile p = l := by
  cases l with
  | nil => rfl
  | cons a t =>
    rw [List.dropWhile_cons, h a (List.mem_cons_self a t)]
    simp

theorem pyStrip_digits {s : String} (h : s.data.all Char.isDigit = true) :
    pyStrip s = s := by
  have hall : ∀ c ∈ s.data, pyIsSpace c = false := by
    intro c hc
    exact digit_not_space (List.all_eq_true.mp h c hc)
  have hall2 : ∀ c ∈ s.data.reverse, pyIsSpace c = false := by
    intro c hc
    exact hall c (List.mem_reverse.mp hc)
  unfold pyStrip
  rw [dropWhile_eq_self_of_all hall, dropWhile_eq_self_of_all hall2,
    List.reverse_reverse]

theorem pyInt_digits {s : String} (h : isDigitString s = true) :
    pyInt s = .ok ((natOfDigits s : Nat) : Int) := by
  have hne : s.data ≠ [] := by
    simp only [isDigitString, Bool.and_eq_true, Bool.not_eq_true'] at h
    simpa [List.isEmpty_iff] using h.1
  have hdig : s.data.all Char.isDigit = true := by
    simp only [isDigitString, Bool.and_eq_true] at h
    exact h.2
  cases hsd : s.data with
  | nil => exact absurd hsd hne
  | cons c cs =>
    have hcd : c.isDigit = true :=
      List.all_eq_true.mp hdig c (by rw [hsd]; exact List.mem_cons_self c cs)
    have hcm : ¬(c = '-') := by
      intro he
      subst he
      exact absurd hcd (by decide)
    have hcp : ¬(c = '+') := by
      intro he
      subst he
      exact absurd hcd (by decide)
    have hcore : pyIntCore (pyStrip s).data = (false, s.data) := by
      rw [pyStrip_digits hdig, hsd]
      simp only [pyIntCore]
      rw [if_neg hcm, if_neg hcp]
    unfold pyInt
    rw [hcore]
    have hguard : (decide ((false, s.data).2 ≠ []) && (false, s.data).2.all Char.isDigit) = true := by
      simp [hne, hdig]
    rw [if_pos hguard]
    simp only [natOfDigits]
    rfl

theorem caretNext_eq_none_iff (l : List String) :
    caretNext l = none ↔ l.all (fun p => p = "0") = true := by
  induction l with
  | nil => simp [caretNext]
  | cons c rest ih =>
    by_cases hc : c = "0"
    · subst hc
      simp [caretNext, Option.map_eq_none', ih]
    · simp [caretNext, hc]

theorem caretBump_spec (parts : List String)
    (h : ∀ p ∈ parts, isDigitString p = true) :
    caretBump parts =
      match caretNext parts with
      | none => .error (.valueError "All components were zero?")
      | some w => .ok w := by
  induction parts with
  | nil => rfl
  | cons c rest ih =>
    by_cases hc : c = "0"
    · subst hc
      have ih2 := ih (fun p hp => h p (List.mem_cons_of_mem _ hp))
      cases hn : caretNext rest with
      | none =>
        rw [hn] at ih2
        simp [caretBump, ih2, caretNext, hn, bind, Except.bind]
      | some t =>
        rw [hn] at ih2
        simp [caretBump, ih2, caretNext, hn, bind, Except.bind]
    · have hd := h c (List.mem_cons_self c rest)
      simp [caretBump, hc, pyInt_digits hd, caretNext, bind, Except.bind]

theorem splitOnChar_ne_nil (c : Char) (l : List Char) : splitOnChar c l ≠ [] := by
  cases l with
  | nil => simp [splitOnChar]
  | cons h t =>
    rw [splitOnChar]
    by_cases hc : h = c
    · simp [hc]
    · simp only [if_neg hc]
      cases splitOnChar c t with
      | nil => simp
      | cons g gs => simp

/-- C5 counterexample: for the caret specifier `^0.00.0` every dot
component is numerically zero, yet `_translate_caret` does not fail with a
value error as the claim requires — it treats the literal string `"00"` as
the leftmost non-zero component and returns a range. -/
theorem c5_counterexample :
    translate_caret "^0.00.0" = .ok ">=0.00.0,<0.1"
    ∧ ∀ p ∈ strSplitOnChar (strDrop "^0.00.0" 1) '.', natOfDigits p = 0 := by
  exact ⟨rfl, by decide⟩

/-- C5 as amended: for a comma-free caret specifier `^V` whose dot
components are all digit strings, `_translate_caret` fails with a value
error when every padded component is the literal `"0"`, and otherwise
returns `>=V,<W` where `W` keeps the leading `"0"` components, increments
the leftmost component that is not the literal `"0"` and truncates the
rest (for canonical versions, where zero components are written `"0"`,
this is exactly the claimed behaviour); for a comma-free tilde specifier
`~V` with digit components, `_translate_tilde` returns `>=V,<W` where `W`
keeps only the first two components with the last kept one incremented. -/
theorem c5_caret_tilde_translation :
    (∀ s : String, strTake s 1 = "^" → pyIn "," s = false →
      (∀ p ∈ strSplitOnChar (strDrop s 1) '.', isDigitString p = true) →
      (((strSplitOnChar (strDrop s 1) '.' ++
          List.replicate (3 - (strSplitOnChar (strDrop s 1) '.').length) "0").all
            (fun p => p = "0") = true →
        translate_caret s = .error (.valueError "All components were zero?"))
      ∧ ((strSplitOnChar (strDrop s 1) '.' ++
          List.replicate (3 - (strSplitOnChar (strDrop s 1) '.').length) "0").all
            (fun p => p = "0") = false →
        ∃ w, caretNext (strSplitOnChar (strDrop s 1) '.' ++
            List.replicate (3 - (strSplitOnChar (strDrop s 1) '.').length) "0") = some w
          ∧ translate_caret s = .ok (">=" ++ strDrop s 1 ++ ",<" ++ strIntercalate "." w))))
    ∧ (∀ s : String, strTake s 1 = "~" → pyIn "," s = false →
      (∀ p ∈ strSplitOnChar (strDrop s 1) '.', isDigitString p = true) →
      translate_tilde s = .ok (">=" ++ strDrop s 1 ++ ",<"
        ++ strIntercalate "." (tildeNext (strSplitOnChar (strDrop s 1) '.')))) := by
  constructor
  · intro s _ hcomma hdig
    have hdig2 : ∀ p ∈ strSplitOnChar (strDrop s 1) '.' ++
        List.replicate (3 - (strSplitOnChar (strDrop s 1) '.').length) "0",
        isDigitString p = true := by
      intro p hp
      rcases List.mem_append.mp hp with h1 | h2
      · exact hdig p h1
      · rw [List.eq_of_mem_replicate h2]
        decide
    have hbump := caretBump_spec _ hdig2
    constructor
    · intro hall
      have hnone : caretNext (strSplitOnChar (strDrop s 1) '.' ++
          List.replicate (3 - (strSplitOnChar (strDrop s 1) '.').length) "0") = none :=
        (caretNext_eq_none_iff _).mpr hall
      rw [hnone] at hbump
      simp [translate_caret, hcomma, hbump, bind, Except.bind, pure, Except.pure]
    · intro hall
      have hnone : caretNext (strSplitOnChar (strDrop s 1) '.' ++
          List.replicate (3 - (strSplitOnChar (strDrop s 1) '.').length) "0") ≠ none := by
        intro hn
        rw [(caretNext_eq_none_iff _).mp hn] at hall
        exact absurd hall (by simp)
      cases hw : caretNext (strSplitOnChar (strDrop s 1) '.' ++
          List.replicate (3 - (strSplitOnChar (strDrop s 1) '.').length) "0") with
      | none => exact absurd hw hnone
      | some w =>
        refine ⟨w, rfl, ?_⟩
        rw [hw] at hbump
        simp [translate_caret, hcomma, hbump, bind, Except.bind, pure, Except.pure]
  · intro s _ hcomma hdig
    cases hp : strSplitOnChar (strDrop s 1) '.' with
    | nil => exact absurd hp (by simpa [strSplitOnChar] using splitOnChar_ne_nil '.' (strDrop s 1).data)
    | cons a rest =>
      cases rest with
      | nil =>
        have ha := hdig a (by rw [hp]; exact List.mem_cons_self a [])
        simp [translate_tilde, hcomma, hp, pyInt_digits ha, tildeNext, bind, Except.bind, pure, Except.pure]
      | cons b rest2 =>
        have hb := hdig b (by rw [hp]; exact List.mem_cons_of_mem a (List.mem_cons_self b rest2))
        simp [translate_tilde, hcomma, hp, pyInt_digits hb, tildeNext, bind, Except.bind, pure, Except.pure]

/-- Witness for C5 at the concrete specifiers `^0.2.3` (caret, non-zero
component present) and `~1.2.3` (tilde). -/
theorem c5_caret_tilde_translation_witness :
    translate_caret "^0.2.3" = .ok ">=0.2.3,<0.3"
    ∧ translate_tilde "~1.2.3" = .ok ">=1.2.3,<1.3" := by
  constructor
  · obtain ⟨w, hw, hres⟩ :=
      ((c5_caret_tilde_translation.1 "^0.2.3" (by decide) (by decide)
        (by decide)).2 (by decide))
    rw [hres]
    have : w = ["0", "3"] := by
      have := hw
      rw [show caretNext (strSplitOnChar (strDrop "^0.2.3" 1) '.' ++
          List.replicate (3 - (strSplitOnChar (strDrop "^0.2.3" 1) '.').length) "0")
          = some ["0", "3"] from by decide] at this
      exact (Option.some_inj.mp this).symm
    rw [this]
    rfl
  · exact c5_caret_tilde_translation.2 "~1.2.3" (by decide) (by decide) (by decide)

/-! ## Claim C9 -/

/-- Is this recorded argument the `UNKNOWN` sentinel? -/
def isUnknownArg : Option SetupArg → Bool
  | some .unknown => true
  | _ => false

theorem isUnknownArg_eq_true_iff (o : Option SetupArg) :
    isUnknownArg o = true ↔ o = some .unknown := by
  cases o with
  | none => simp [isUnknownArg]
  | some a =>
    cases a with
    | unknown => simp [isUnknownArg]
    | lit v => simp [isUnknownArg]

/-- An element acceptable to `merge_extra_marker`: a string, or a
non-string with no `";"` member (so the `.partition` branch is never
reached on a non-string). -/
def extraDepOk (i : PyLit) : Bool :=
  match i with
  | .str _ => true
  | o => !pyContainsLit ";" o

/-- Shape of an `extras_require` value under which the block cannot raise
an `AttributeError`: unknown, absent, falsy, or a dict of conventional
dependency lists. -/
def extrasShapeOk : Option SetupArg → Bool
  | some (.lit v) =>
    !pyTruthyLit v ||
      (match v with
       | .dict kvs => kvs.all (fun kv => (iterLit kv.2).all extraDepOk)
       | _ => false)
  | _ => true

/-- Shape of a `project_urls` value under which `.items()` succeeds:
unknown, absent, falsy, or a dict. -/
def dictShapeOk : Option SetupArg → Bool
  | some (.lit v) =>
    !pyTruthyLit v || (match v with | .dict _ => true | _ => false)
  | _ => true

/-- The conventional-shape domain of the claim: the two dict-consuming
keys, when passed a literal, carry values of the shapes `setup()` callers
use (`extras_require` a dict of dependency lists, `project_urls` a dict).
All other consumed keys are unrestricted. -/
def ConventionalArgs (d : List (String × SetupArg)) : Prop :=
  extrasShapeOk (setupArgGet d "extras_require") = true
  ∧ dictShapeOk (setupArgGet d "project_urls") = true

theorem installRequiresBlock_unknown (d : List (String × SetupArg)) (buf : List String)
    (h : setupArgGet d "install_requires" = some .unknown) :
    installRequiresBlock d buf = .error (.valueError "Complex setup call can\x27t extract reqs") := by
  simp [installRequiresBlock, h, truthyArg]

theorem installRequiresBlock_ok (d : List (String × SetupArg)) (buf : List String)
    (h : isUnknownArg (setupArgGet d "install_requires") = false) :
    ∃ b2, installRequiresBlock d buf = .ok b2 := by
  unfold installRequiresBlock
  cases hg : setupArgGet d "install_requires" with
  | none => exact ⟨buf, rfl⟩
  | some a =>
    cases a with
    | unknown =>
      rw [hg] at h
      simp [isUnknownArg] at h
    | lit v =>
      by_cases ht : truthyArg (.lit v) = true
      · refine ⟨buf ++ (iterLit v).map (fun dep => "Requires-Dist: " ++ formatLit dep ++ "\n"), ?_⟩
        simp [ht]
      · exact ⟨buf, by simp [ht]⟩

theorem simpleKeyBlock_unknown (d : List (String × SetupArg)) (key header msg : String)
    (buf : List String) (h : setupArgGet d key = some .unknown) :
    simpleKeyBlock d key header msg buf = .error (.valueError msg) := by
  simp [simpleKeyBlock, h, truthyArg]

theorem simpleKeyBlock_ok (d : List (String × SetupArg)) (key header msg : String)
    (buf : List String) (h : isUnknownArg (setupArgGet d key) = false) :
    ∃ b2, simpleKeyBlock d key header msg buf = .ok b2 := by
  unfold simpleKeyBlock
  cases hg : setupArgGet d key with
  | none => exact ⟨buf, rfl⟩
  | some a =>
    cases a with
    | unknown =>
      rw [hg] at h
      simp [isUnknownArg] at h
    | lit v =>
      by_cases ht : truthyArg (.lit v) = true
      · refine ⟨buf ++ [header ++ ": " ++ formatLit v ++ "\n"], ?_⟩
        simp [ht]
      · exact ⟨buf, by simp [ht]⟩

theorem mergeExtraMarkerLit_ok (extra : String) (i : PyLit) (h : extraDepOk i = true) :
    ∃ r, mergeExtraMarkerLit extra i = .ok r := by
  cases i with
  | str s => exact ⟨_, rfl⟩
  | list es =>
    simp only [extraDepOk] at h
    refine ⟨formatLit (PyLit.list es) ++ " ; extra == \"" ++ extra ++ "\"", ?_⟩
    simp [mergeExtraMarkerLit, h]
  | dict kvs =>
    simp only [extraDepOk] at h
    refine ⟨formatLit (PyLit.dict kvs) ++ " ; extra == \"" ++ extra ++ "\"", ?_⟩
    simp [mergeExtraMarkerLit, h]

theorem foldlM_ok {α β : Type} (f : β → α → Except PyExn β) (l : List α)
    (h : ∀ b a, a ∈ l → ∃ b2, f b a = .ok b2) :
    ∀ init, ∃ r, l.foldlM f init = .ok r := by
  induction l with
  | nil =>
    intro init
    exact ⟨init, rfl⟩
  | cons a t ih =>
    intro init
    obtain ⟨b2, hb2⟩ := h init a (List.mem_cons_self a t)
    obtain ⟨r, hr⟩ := ih (fun b x hx => h b x (List.mem_cons_of_mem _ hx)) b2
    refine ⟨r, ?_⟩
    rw [List.foldlM_cons, hb2]
    simpa [bind, Except.bind] using hr

theorem extrasRequireBlock_unknown (d : List (String × SetupArg)) (buf : List String)
    (h : setupArgGet d "extras_require" = some .unknown) :
    extrasRequireBlock d buf = .error (.valueError "Complex setup call can\x27t extract extras") := by
  simp [extrasRequireBlock, h, truthyArg]

theorem extrasRequireBlock_ok (d : List (String × SetupArg)) (buf : List String)
    (h : isUnknownArg (setupArgGet d "extras_require") = false)
    (hs : extrasShapeOk (setupArgGet d "extras_require") = true) :
    ∃ b2, extrasRequireBlock d buf = .ok b2 := by
  unfold extrasRequireBlock
  cases hg : setupArgGet d "extras_require" with
  | none => exact ⟨buf, rfl⟩
  | some a =>
    cases a with
    | unknown =>
      rw [hg] at h
      simp [isUnknownArg] at h
    | lit v =>
      rw [hg] at hs
      by_cases ht : pyTruthyLit v = true
      · cases v with
        | str s =>
          exfalso
          simp [extrasShapeOk, ht] at hs
        | list es =>
          exfalso
          simp [extrasShapeOk, ht] at hs
        | dict kvs =>
          have hinner : ∀ kv ∈ kvs, ∀ i ∈ iterLit kv.2, extraDepOk i = true := by
            simp only [extrasShapeOk, ht, Bool.not_true, Bool.false_or] at hs
            intro kv hkv i hi
            exact List.all_eq_true.mp (List.all_eq_true.mp hs kv hkv) i hi
          have hstep : ∀ b kv, kv ∈ kvs → ∃ b2,
              (fun (b : List String) (kv : String × PyLit) => do
                let extra_name := canonicalize_name kv.1
                let b := b ++ ["Provides-Extra: " ++ extra_name ++ "\n"]
                (iterLit kv.2).foldlM
                  (fun b2 i => do
                    let s ← mergeExtraMarkerLit extra_name i
                    pure (b2 ++ ["Requires-Dist: " ++ s ++ "\n"]))
                  b) b kv = .ok b2 := by
            intro b kv hkv
            have hin : ∀ b2 i, i ∈ iterLit kv.2 → ∃ b3,
                (fun (b2 : List String) (i : PyLit) => do
                  let s ← mergeExtraMarkerLit (canonicalize_name kv.1) i
                  pure (b2 ++ ["Requires-Dist: " ++ s ++ "\n"])) b2 i = .ok b3 := by
              intro b2 i hi
              obtain ⟨r, hr⟩ := mergeExtraMarkerLit_ok (canonicalize_name kv.1) i
                (hinner kv hkv i hi)
              refine ⟨b2 ++ ["Requires-Dist: " ++ r ++ "\n"], ?_⟩
              simp [hr, bind, Except.bind, pure, Except.pure]
            exact foldlM_ok _ _ hin _
          have hfold := foldlM_ok _ kvs hstep buf
          obtain ⟨r, hr⟩ := hfold
          refine ⟨r, ?_⟩
          simp only [truthyArg, ht, if_true, itemsLit, bind, Except.bind]
          exact hr
      · refine ⟨buf, ?_⟩
        have ht2 : truthyArg (.lit v) = false := by
          simpa [truthyArg] using ht
        simp [ht2]

theorem projectUrlsBlock_unknown (d : List (String × SetupArg)) (buf : List String)
    (h : setupArgGet d "project_urls" = some .unknown) :
    projectUrlsBlock d buf = .error (.valueError "Complex setup call can\x27t extract project_urls") := by
  simp [projectUrlsBlock, h, truthyArg]

theorem projectUrlsBlock_ok (d : List (String × SetupArg)) (buf : List String)
    (h : isUnknownArg (setupArgGet d "project_urls") = false)
    (hs : dictShapeOk (setupArgGet d "project_urls") = true) :
    ∃ b2, projectUrlsBlock d buf = .ok b2 := by
  unfold projectUrlsBlock
  cases hg : setupArgGet d "project_urls" with
  | none => exact ⟨buf, rfl⟩
  | some a =>
    cases a with
    | unknown =>
      rw [hg] at h
      simp [isUnknownArg] at h
    | lit v =>
      rw [hg] at hs
      by_cases ht : pyTruthyLit v = true
      · cases v with
        | str s =>
          exfalso
          simp [dictShapeOk, ht] at hs
        | list es =>
          exfalso
          simp [dictShapeOk, ht] at hs
        | dict kvs =>
          refine ⟨buf ++ kvs.map (fun kv => "Project-URL: " ++ kv.1 ++ "=" ++ formatLit kv.2 ++ "\n"), ?_⟩
          simp [truthyArg, ht, itemsLit, bind, Except.bind]
      · refine ⟨buf, ?_⟩
        have ht2 : truthyArg (.lit v) = false := by
          simpa [truthyArg] using ht
        simp [ht2]

theorem processSetupArgs_error_iff (d : List (String × SetupArg))
    (hne : d.isEmpty = false) (hconv : ConventionalArgs d) :
    (∃ msg, processSetupArgs (some d) = .error (.valueError msg)) ↔
      (setupArgGet d "install_requires" = some .unknown
       ∨ setupArgGet d "extras_require" = some .unknown
       ∨ setupArgGet d "name" = some .unknown
       ∨ setupArgGet d "python_requires" = some .unknown
       ∨ setupArgGet d "url" = some .unknown
       ∨ setupArgGet d "project_urls" = some .unknown) := by
  by_cases h1 : isUnknownArg (setupArgGet d "install_requires") = true
  · have hu := (isUnknownArg_eq_true_iff _).mp h1
    apply iff_of_true
    · exact ⟨"Complex setup call can\x27t extract reqs", by
        simp [processSetupArgs, hne, installRequiresBlock_unknown d [] hu, bind, Except.bind]⟩
    · exact Or.inl hu
  · have h1f : isUnknownArg (setupArgGet d "install_requires") = false := by simpa using h1
    obtain ⟨b1, hb1⟩ := installRequiresBlock_ok d [] h1f
    by_cases h2 : isUnknownArg (setupArgGet d "extras_require") = true
    · have hu := (isUnknownArg_eq_true_iff _).mp h2
      apply iff_of_true
      · exact ⟨"Complex setup call can\x27t extract extras", by
          simp [processSetupArgs, hne, hb1, extrasRequireBlock_unknown d b1 hu,
            bind, Except.bind]⟩
      · exact Or.inr (Or.inl hu)
    · have h2f : isUnknownArg (setupArgGet d "extras_require") = false := by simpa using h2
      obtain ⟨b2, hb2⟩ := extrasRequireBlock_ok d b1 h2f hconv.1
      by_cases h3 : isUnknownArg (setupArgGet d "name") = true
      · have hu := (isUnknownArg_eq_true_iff _).mp h3
        apply iff_of_true
        · exact ⟨"Complex setup call can\x27t extract name", by
            simp [processSetupArgs, hne, hb1, hb2,
              simpleKeyBlock_unknown d "name" "Name"
                "Complex setup call can\x27t extract name" b2 hu,
              bind, Except.bind]⟩
        · exact Or.inr (Or.inr (Or.inl hu))
      · have h3f : isUnknownArg (setupArgGet d "name") = false := by simpa using h3
        obtain ⟨b3, hb3⟩ := simpleKeyBlock_ok d "name" "Name"
          "Complex setup call can\x27t extract name" b2 h3f
        by_cases h4 : isUnknownArg (setupArgGet d "python_requires") = true
        · have hu := (isUnknownArg_eq_true_iff _).mp h4
          apply iff_of_true
          · exact ⟨"Complex setup call can\x27t extract python_requires", by
              simp [processSetupArgs, hne, hb1, hb2, hb3,
                simpleKeyBlock_unknown d "python_requires" "Requires-Python"
                  "Complex setup call can\x27t extract python_requires" b3 hu,
                bind, Except.bind]⟩
          · exact Or.inr (Or.inr (Or.inr (Or.inl hu)))
        · have h4f : isUnknownArg (setupArgGet d "python_requires") = false := by
            simpa using h4
          obtain ⟨b4, hb4⟩ := simpleKeyBlock_ok d "python_requires" "Requires-Python"
            "Complex setup call can\x27t extract python_requires" b3 h4f
          by_cases h5 : isUnknownArg (setupArgGet d "url") = true
          · have hu := (isUnknownArg_eq_true_iff _).mp h5
            apply iff_of_true
            · exact ⟨"Complex setup call can\x27t extract url", by
                simp [processSetupArgs, hne, hb1, hb2, hb3, hb4,
                  simpleKeyBlock_unknown d "url" "Home-Page"
                    "Complex setup call can\x27t extract url" b4 hu,
                  bind, Except.bind]⟩
            · exact Or.inr (Or.inr (Or.inr (Or.inr (Or.inl hu))))
          · have h5f : isUnknownArg (setupArgGet d "url") = false := by simpa using h5
            obtain ⟨b5, hb5⟩ := simpleKeyBlock_ok d "url" "Home-Page"
              "Complex setup call can\x27t extract url" b4 h5f
            by_cases h6 : isUnknownArg (setupArgGet d "project_urls") = true
            · have hu := (isUnknownArg_eq_true_iff _).mp h6
              apply iff_of_true
              · exact ⟨"Complex setup call can\x27t extract project_urls", by
                  simp [processSetupArgs, hne, hb1, hb2, hb3, hb4, hb5,
                    projectUrlsBlock_unknown d b5 hu, bind, Except.bind]⟩
              · exact Or.inr (Or.inr (Or.inr (Or.inr (Or.inr hu))))
            · have h6f : isUnknownArg (setupArgGet d "project_urls") = false := by
                simpa using h6
              obtain ⟨b6, hb6⟩ := projectUrlsBlock_ok d b5 h6f hconv.2
              have hok : processSetupArgs (some d) = .ok (String.join b6) := by
                simp [processSetupArgs, hne, hb1, hb2, hb3, hb4, hb5, hb6,
                  bind, Except.bind, pure, Except.pure]
              apply iff_of_false
              · rintro ⟨msg, hmsg⟩
                rw [hok] at hmsg
                exact absurd hmsg (by simp)
              · rintro (h | h | h | h | h | h)
                · exact absurd ((isUnknownArg_eq_true_iff _).mpr h) (by simp [h1f])
                · exact absurd ((isUnknownArg_eq_true_iff _).mpr h) (by simp [h2f])
                · exact absurd ((isUnknownArg_eq_true_iff _).mpr h) (by simp [h3f])
                · exact absurd ((isUnknownArg_eq_true_iff _).mpr h) (by simp [h4f])
                · exact absurd ((isUnknownArg_eq_true_iff _).mpr h) (by simp [h5f])
                · exact absurd ((isUnknownArg_eq_true_iff _).mpr h) (by simp [h6f])

/-- `from setuptools import setup; setup()` — a setup call with no
arguments. -/
def c9TrivialSetupModule : PyModule :=
  ⟨[.importFrom (some "setuptools") 0 [("setup", none)],
    .exprStmt (.call (.name "setup" 0) [])]⟩

/-- An empty module: no setup call at all. -/
def c9NoCallModule : PyModule := ⟨[]⟩

/-- `from setuptools import setup; setup(install_requires=blarg)` with
`blarg` an undefined name. -/
def c9BlargModule : PyModule :=
  ⟨[.importFrom (some "setuptools") 0 [("setup", none)],
    .exprStmt (.call (.name "setup" 0) [(some "install_requires", .name "blarg" 1)])]⟩

/-- C9: `from_setup_py_checkout` raises the "unresolvable setup call"
`ValueError` exactly when one of the consumed keys `install_requires`,
`extras_require`, `name`, `python_requires`, `url`, `project_urls` was
passed to `setup()` and resolved to the `UNKNOWN` sentinel (stated over
arguments of the conventional shapes, where no other exception can
preempt the check); a `setup()` call with no arguments, and a module with
no setup call, both produce an empty result with no error — concretely,
`setup(install_requires=blarg)` with `blarg` undefined raises. -/
theorem c9_unresolvable_setup_call (m : PyModule) :
    ((runVisitor m).setup_call_args = none → from_setup_py_checkout m = .ok "")
    ∧ (∀ d, (runVisitor m).setup_call_args = some d → d.isEmpty = true →
        from_setup_py_checkout m = .ok "")
    ∧ (∀ d, (runVisitor m).setup_call_args = some d → d.isEmpty = false →
        ConventionalArgs d →
        ((∃ msg, from_setup_py_checkout m = .error (.valueError msg)) ↔
          (setupArgGet d "install_requires" = some .unknown
           ∨ setupArgGet d "extras_require" = some .unknown
           ∨ setupArgGet d "name" = some .unknown
           ∨ setupArgGet d "python_requires" = some .unknown
           ∨ setupArgGet d "url" = some .unknown
           ∨ setupArgGet d "project_urls" = some .unknown)))
    ∧ from_setup_py_checkout c9TrivialSetupModule = .ok ""
    ∧ from_setup_py_checkout c9NoCallModule = .ok ""
    ∧ from_setup_py_checkout c9BlargModule =
        .error (.valueError "Complex setup call can\x27t extract reqs") := by
  refine ⟨?_, ?_, ?_, rfl, rfl, rfl⟩
  · intro h
    rw [from_setup_py_checkout, h]
    rfl
  · intro d hd he
    rw [from_setup_py_checkout, hd]
    simp [processSetupArgs, he, pure, Except.pure]
  · intro d hd hne hconv
    rw [from_setup_py_checkout, hd]
    exact processSetupArgs_error_iff d hne hconv

/-- Witness for C9 at `setup(install_requires=blarg)`: the key records
the `UNKNOWN` sentinel and extraction raises the unresolvable error. -/
theorem c9_unresolvable_setup_call_witness :
    (runVisitor c9BlargModule).setup_call_args =
      some [("install_requires", SetupArg.unknown)]
    ∧ (∃ msg, from_setup_py_checkout c9BlargModule = .error (.valueError msg)) :=
  ⟨rfl,
   ((c9_unresolvable_setup_call c9BlargModule).2.2.1
      [("install_requires", SetupArg.unknown)] rfl rfl ⟨rfl, rfl⟩).mpr (Or.inl rfl)⟩

end MetadataPlease
